import Mathlib

/-!
# The u-blox provisioning hooks of `drivers/modem/ublox_ppp.c`

A shallow embedding of the response parsers, the four convergence steps
(MNO profile, PSM, URAT, UBANDMASK), the network status poll and the two hooks
of `drivers/modem/ublox_ppp.c`, with theorems about them.

Conventions of the embedding.

* A C `char` is a Lean `Char`: the AT protocol is ASCII, one byte per character.
  A `char` buffer is represented by the C string it holds, that is the
  characters in front of the first NUL (`cstr`); a pointer into a buffer is the
  suffix of that string starting at the pointer.
* `int` values are `Int`; `atoi` reduces its result to the 32-bit range
  (`to_int`), the store of an `int` into a `uint64_t` is `to_uint64`.
* The file-scope variables `minfo` and `ublox_sem` are the record `Driver`;
  the commands written to the modem interface are logged in `State.sent`.
* The command transport is not part of this file of the driver; it is a
  parameter `Transport` that gives, for every command sent, the response lines
  dispatched meanwhile and the error reported for the command.
-/

namespace UbloxPPP

/-! ## C library -/

/-- Value of `EIO` in `errno.h`. -/
def EIO : Int := 5

/-- Value of `EAGAIN` in `errno.h`. -/
def EAGAIN : Int := 11

/-- Value of `EINVAL` in `errno.h`. -/
def EINVAL : Int := 22

/-- Value of `ETIMEDOUT` in `errno.h`. -/
def ETIMEDOUT : Int := 116

/-- The C string held by a buffer: the characters in front of the first NUL. -/
def cstr (buf : List Char) : List Char :=
  buf.takeWhile (fun c => c != '\x00')

/-- Modelled from the spec: the C library function `strchr(p, x)`, which is not
under `src/` ("find `:`", "content after the first space"), for `x` other than
NUL: the suffix of `p` that starts at the first `x`, or `none` (the null
pointer) when `x` is not in `p`. -/
def strchr : List Char → Char → Option (List Char)
  | [], _ => none
  | c :: cs, x => if c = x then some (c :: cs) else strchr cs x

/-- The character `*(p + i)` of a C string; the terminating NUL at its end. -/
def deref (p : List Char) (i : Nat) : Char :=
  p.getD i '\x00'

/-- The white space `atoi` skips: the C library predicate `isspace` (C locale). -/
def isspace (c : Char) : Bool :=
  c = ' ' || c = '\t' || c = '\n' || c = '\x0b' || c = '\x0c' || c = '\r'

/-- The digits `atoi` reads: the C library predicate `isdigit`. -/
def isdigit (c : Char) : Bool :=
  decide (48 ≤ c.toNat) && decide (c.toNat ≤ 57)

/-- Reduction of an integer to the range of a 32-bit `int` (two's complement). -/
def to_int (x : Int) : Int :=
  (x + 2 ^ 31) % 2 ^ 32 - 2 ^ 31

/-- Conversion of an `int` to `uint64_t`. -/
def to_uint64 (v : Int) : Nat :=
  (v % 2 ^ 64).toNat

/-- The digit loop of `atoi`: `n = 10 * n + (c - '0')` while `isdigit(c)`. -/
def atoi_digits : List Char → Int → Int
  | [], n => n
  | c :: cs, n => if isdigit c then atoi_digits cs (10 * n + ((c.toNat : Int) - 48)) else n

/-- Modelled from the spec: the C library function `atoi`, which is not under
`src/`. The spec reads the parsed fields as integers ("the profile is the
trailing integer", "comma-separated integer fields"); this is the conversion of
the C standard: leading white space is skipped, an optional sign is read, then
the decimal digits, and the conversion stops at the first other character. A
value outside the range of `int` is reduced modulo `2 ^ 32`. -/
def atoi (s : List Char) : Int :=
  let r := s.dropWhile isspace
  if r.head? = some '-' then to_int (-(atoi_digits r.tail 0))
  else if r.head? = some '+' then to_int (atoi_digits r.tail 0)
  else to_int (atoi_digits r 0)

/-- Modelled from the spec: `net_buf_linearize(buf, cap, rx_buf, 0, len)`, which
is not under `src/`: it copies the response line into the buffer, at most `cap`
characters of it ("length-capped ..., silently truncated if longer"). -/
def net_buf_linearize (cap : Nat) (line : List Char) : List Char :=
  line.take cap

/-! ## Driver state -/

/-- The C type `struct modem_info`; `mdm_bandmask0` and `mdm_bandmask1` are the
two entries of `mdm_bandmask[MDM_UBANDMASKS]`, `mdm_urat` the C string in the
buffer of that name. -/
structure modem_info where
  mdm_mnoprof : Int
  mdm_psm : Int
  mdm_urat : List Char
  mdm_bandmask0 : Nat
  mdm_bandmask1 : Nat
  mdm_signal : Int
  mdm_simcard_status : Int
  mdm_roaming : Int
  mdm_service : Int
deriving DecidableEq, Repr

/-- The file-scope variables: `minfo` and the count of the semaphore
`K_SEM_DEFINE(ublox_sem, 0, 1)`. -/
structure Driver where
  minfo : modem_info
  ublox_sem : Nat
deriving DecidableEq, Repr

/-- The driver variables together with the log of the commands written to the
modem interface, oldest first. -/
structure State where
  drv : Driver
  sent : List String
deriving DecidableEq, Repr

/-- The constant `MDM_UBANDMASKS`. -/
def MDM_UBANDMASKS : Int := 2

/-- Modelled from the spec: `k_sem_give` on the single-slot completion signal,
which is not under `src/`: the count goes up by one and never past the limit 1
of `K_SEM_DEFINE(ublox_sem, 0, 1)`. -/
def k_sem_give (d : Driver) : Driver :=
  { d with ublox_sem := min (d.ublox_sem + 1) 1 }

/-- The assignment `minfo.mdm_bandmask[rat] = v` for an index `rat` in range. -/
def set_bandmask (m : modem_info) (rat : Int) (v : Int) : modem_info :=
  if rat = 0 then { m with mdm_bandmask0 := to_uint64 v }
  else { m with mdm_bandmask1 := to_uint64 v }

/-! ## Response parsers -/

/-- A response handler (`MODEM_CMD_DEFINE`): it gets a response line and returns
its result and the new driver variables. -/
abbrev Handler := List Char → Driver → Int × Driver

/-- Handler of `+UMNOPROF: <mnoprof>`. -/
def on_cmd_atcmdinfo_mnoprof : Handler := fun line d =>
  let buf := cstr (net_buf_linearize 15 line)
  match strchr buf ':' with
  | none => (-EINVAL, { d with minfo := { d.minfo with mdm_mnoprof := -1 } })
  | some prof =>
    if deref prof 1 ≠ ' ' then
      (-EINVAL, { d with minfo := { d.minfo with mdm_mnoprof := -1 } })
    else
      (0, k_sem_give { d with minfo := { d.minfo with mdm_mnoprof := atoi (prof.drop 2) } })

/-- Handler of `+CPSMS: <mode>,[...]`. -/
def on_cmd_atcmdinfo_psm : Handler := fun line d =>
  let buf := cstr (net_buf_linearize 15 line)
  match strchr buf ':' with
  | none => (-EINVAL, d)
  | some psm =>
    (0, k_sem_give { d with minfo := { d.minfo with mdm_psm := ((deref psm 1).toNat : Int) - 48 } })

/-- Handler of `+URAT: <rat1>,[...]`. -/
def on_cmd_atcmdinfo_urat : Handler := fun line d =>
  let urat := cstr (net_buf_linearize 15 line)
  let urat := match strchr urat ' ' with
    | some p => p.drop 1
    | none => urat
  (0, k_sem_give { d with minfo := { d.minfo with mdm_urat := urat } })

/-- The statements `p = strchr(p, ','); if (p) p++;`. -/
def next_field (p : List Char) : Option (List Char) :=
  match strchr p ',' with
  | none => none
  | some q => some (q.drop 1)

/-- The `while (p)` loop of `on_cmd_atcmdinfo_ubandmask`, for at most `fuel`
rounds, from the pointer `p`, the counter `i` and the variable `rat`. -/
def ubandmask_loop : Nat → List Char → Nat → Int → modem_info → modem_info
  | 0, _, _, _, m => m
  | fuel + 1, p, i, rat, m =>
    let v := atoi p
    let rat' := if i % 2 = 0 then v else rat
    let m' := if i % 2 = 0 then m
      else if 0 ≤ rat ∧ rat < MDM_UBANDMASKS then set_bandmask m rat v
      else m
    match next_field p with
    | none => m'
    | some q => ubandmask_loop fuel q (i + 1) rat' m'

/-- Handler of `+UBANDMASK: <rat0>,<mask>,[...]`. Every round of the loop moves
the pointer past one comma, so `buf.length + 1` rounds end it. -/
def on_cmd_atcmdinfo_ubandmask : Handler := fun line d =>
  let buf := cstr (net_buf_linearize 39 line)
  let p := match strchr buf ' ' with
    | some q => q
    | none => buf
  (0, k_sem_give { d with minfo := ubandmask_loop (buf.length + 1) p 0 (-1) d.minfo })

/-- The `switch (i)` of `on_cmd_atcmdinfo_cind`. -/
def cind_field (i : Nat) (v : Int) (m : modem_info) : modem_info :=
  if i = 1 then { m with mdm_signal := v }
  else if i = 2 then { m with mdm_service := v }
  else if i = 6 then
    { m with mdm_roaming := if v = 1 then 1 else if v = 0 then 0 else -1 }
  else if i = 11 then { m with mdm_simcard_status := v }
  else m

/-- The `while (p)` loop of `on_cmd_atcmdinfo_cind`, for at most `fuel` rounds. -/
def cind_loop : Nat → List Char → Nat → modem_info → modem_info
  | 0, _, _, m => m
  | fuel + 1, p, i, m =>
    let m' := cind_field i (atoi p) m
    match next_field p with
    | none => m'
    | some q => cind_loop fuel q (i + 1) m'

/-- Handler of `+CIND: <battchg>,<signal>,<service>,...,<simind>`. -/
def on_cmd_atcmdinfo_cind : Handler := fun line d =>
  let buf := cstr (net_buf_linearize 39 line)
  (0, k_sem_give { d with minfo := cind_loop (buf.length + 1) buf 0 d.minfo })

/-! ## Command transport -/

/-- What the transport does with one command: the response lines it dispatches
to the handler registered for the command while the sender waits, and `errno`,
the error recorded for the command (`0` when it is acknowledged). -/
structure Reply where
  lines : List (List Char)
  errno : Nat

/-- A behaviour of the transport: the reply to a command, given the commands
sent before it. -/
abbrev Transport := List String → String → Reply

/-- The semaphore a sender waits on: the driver's own `ublox_sem`, or the
response semaphore `sem` that the caller of the hooks passes in. -/
inductive Sem where
  | ublox
  | caller
deriving DecidableEq, Repr

/-- Dispatch of the response lines to the registered handler. A sender that
waits on `ublox_sem` is woken by the first handler call that gives it, and the
lines after that one are not dispatched to the handler any more. -/
def dispatch (h : Handler) (own : Bool) : List (List Char) → Driver → Driver
  | [], d => d
  | l :: ls, d =>
    let d' := (h l d).2
    if own ∧ 0 < d'.ublox_sem then d' else dispatch h own ls d'

/-- Modelled from the spec: `modem_cmd_send_nolock`, which is not under `src/`
("send(command: text) -> ack/err, correlated asynchronously with response
parsing via the completion signal, bounded by a caller-supplied timeout").
The command is written to the interface and the handler, if any, gets the
response lines. A sender waiting on `ublox_sem` first drains it, takes it when
a handler has given it and then returns the recorded error, and times out
(`-ETIMEDOUT`) when no handler gave it. For a sender waiting on the caller's
semaphore the transport decides: it returns the recorded error. -/
def modem_cmd_send_nolock (tr : Transport) (func : Option Handler) (cmd : String)
    (sem : Sem) (s : State) : Int × State :=
  let r := tr s.sent cmd
  let sent := s.sent ++ [cmd]
  match sem with
  | Sem.ublox =>
    let d0 := { s.drv with ublox_sem := 0 }
    let d1 := match func with
      | some h => dispatch h true r.lines d0
      | none => d0
    if 0 < d1.ublox_sem then
      (-(r.errno : Int), { drv := { d1 with ublox_sem := d1.ublox_sem - 1 }, sent := sent })
    else
      (-ETIMEDOUT, { drv := d1, sent := sent })
  | Sem.caller =>
    let d1 := match func with
      | some h => dispatch h false r.lines s.drv
      | none => s.drv
    (-(r.errno : Int), { drv := d1, sent := sent })

/-- The C type `struct setup_cmd`: the command to send and the handler of its
response, if it has one. -/
structure setup_cmd where
  send_cmd : String
  func : Option Handler

/-- The C initialiser `SETUP_CMD(cmd, "", handler, 0U, "")`. -/
def SETUP_CMD (cmd : String) (h : Handler) : setup_cmd :=
  { send_cmd := cmd, func := some h }

/-- The C initialiser `SETUP_CMD_NOHANDLE(cmd)`. -/
def SETUP_CMD_NOHANDLE (cmd : String) : setup_cmd :=
  { send_cmd := cmd, func := none }

/-- The loop of `modem_cmd_handler_setup_cmds_nolock` from the result `ret` of
the command sent last: it stops at the first command with a negative result. -/
def setup_cmds_loop (tr : Transport) (sem : Sem) : List setup_cmd → Int → State → Int × State
  | [], ret, s => (ret, s)
  | c :: cs, _, s =>
    let r := modem_cmd_send_nolock tr c.func c.send_cmd sem s
    if r.1 < 0 then r else setup_cmds_loop tr sem cs r.1 r.2

/-- Modelled from the spec: `modem_cmd_handler_setup_cmds_nolock`, which is not
under `src/` ("Batch variant: send N command/response pairs under a single
lock/session"; "a failure here aborts the sequence"): the commands are sent in
order, the first failure ends the batch and is its result. -/
def modem_cmd_handler_setup_cmds_nolock (tr : Transport) (cmds : List setup_cmd)
    (sem : Sem) (s : State) : Int × State :=
  setup_cmds_loop tr sem cmds 0 s

/-! ## Configuration -/

/-- The configuration constants the file uses: `CONFIG_MODEM_GSM_MNOPROF`,
`CONFIG_MODEM_GSM_URAT`, `CONFIG_MODEM_GSM_UBANDMASK_M1`,
`CONFIG_MODEM_GSM_UBANDMASK_NB1` and whether `CONFIG_MODEM_CACHE_OPERATOR`
is defined. -/
structure Config where
  MNOPROF : Int
  URAT : String
  UBANDMASK_M1 : Nat
  UBANDMASK_NB1 : Nat
  CACHE_OPERATOR : Bool
deriving DecidableEq, Repr

/-- The fields of `struct modem_context` the file reads. -/
structure modem_context where
  data_operator : Int
  data_cached_operator : Int
deriving DecidableEq, Repr

/-- Modelled from the spec: the C library function `strcmp`, which is not under
`src/` ("Equality semantics are exact (... string equality ...)"), as a truth
value: non-zero exactly when the two C strings differ. -/
def strcmp (a b : List Char) : Bool :=
  cstr a != cstr b

/-! ## Convergence steps -/

/-- The array `cmds` of `gsm_setup_mnoprof`. -/
def mnoprof_query_cmds : List setup_cmd :=
  [SETUP_CMD "AT+UMNOPROF?" on_cmd_atcmdinfo_mnoprof]

/-- The function `gsm_setup_mnoprof`. -/
def gsm_setup_mnoprof (cfg : Config) (tr : Transport) (s : State) : Int × State :=
  let q := modem_cmd_handler_setup_cmds_nolock tr mnoprof_query_cmds Sem.ublox s
  if q.1 < 0 then q
  else if q.2.drv.minfo.mdm_mnoprof ≠ -1 ∧ q.2.drv.minfo.mdm_mnoprof ≠ cfg.MNOPROF then
    let r1 := modem_cmd_send_nolock tr none "AT+CFUN=0" Sem.caller q.2
    let r2 := modem_cmd_send_nolock tr none ("AT+UMNOPROF=" ++ toString cfg.MNOPROF)
      Sem.caller r1.2
    let r3 := modem_cmd_send_nolock tr none "AT+CFUN=15" Sem.caller r2.2
    (-EAGAIN, r3.2)
  else q

/-- The array `query_cmds` of `gsm_setup_psm`. -/
def psm_query_cmds : List setup_cmd :=
  [SETUP_CMD "AT+CPSMS?" on_cmd_atcmdinfo_psm]

/-- The array `set_cmds` of `gsm_setup_psm`. -/
def psm_set_cmds : List setup_cmd :=
  [SETUP_CMD_NOHANDLE "ATE0", SETUP_CMD_NOHANDLE "AT+CFUN=0",
   SETUP_CMD_NOHANDLE "AT+CPSMS=0", SETUP_CMD_NOHANDLE "AT+CFUN=15"]

/-- The function `gsm_setup_psm`. -/
def gsm_setup_psm (tr : Transport) (s : State) : Int × State :=
  let q := modem_cmd_handler_setup_cmds_nolock tr psm_query_cmds Sem.ublox s
  if q.1 < 0 then q
  else if q.2.drv.minfo.mdm_psm = 1 then
    let r := modem_cmd_handler_setup_cmds_nolock tr psm_set_cmds Sem.caller q.2
    if r.1 < 0 then r else (-EAGAIN, r.2)
  else q

/-- The array `query_cmds` of `gsm_setup_urat`. -/
def urat_query_cmds : List setup_cmd :=
  [SETUP_CMD "AT+URAT?" on_cmd_atcmdinfo_urat]

/-- The array `set_cmds` of `gsm_setup_urat`. -/
def urat_set_cmds (cfg : Config) : List setup_cmd :=
  [SETUP_CMD_NOHANDLE "ATE0", SETUP_CMD_NOHANDLE "AT+CFUN=0",
   SETUP_CMD_NOHANDLE ("AT+URAT=" ++ cfg.URAT), SETUP_CMD_NOHANDLE "AT+CFUN=15"]

/-- The function `gsm_setup_urat`. -/
def gsm_setup_urat (cfg : Config) (tr : Transport) (s : State) : Int × State :=
  let q := modem_cmd_handler_setup_cmds_nolock tr urat_query_cmds Sem.ublox s
  if q.1 < 0 then q
  else if strcmp q.2.drv.minfo.mdm_urat cfg.URAT.data then
    let r := modem_cmd_handler_setup_cmds_nolock tr (urat_set_cmds cfg) Sem.caller q.2
    if r.1 < 0 then r else (-EAGAIN, r.2)
  else q

/-- The array `query_cmds` of `gsm_setup_ubandmask`. -/
def ubandmask_query_cmds : List setup_cmd :=
  [SETUP_CMD "AT+UBANDMASK?" on_cmd_atcmdinfo_ubandmask]

/-- The array `set_cmds` of `gsm_setup_ubandmask`. -/
def ubandmask_set_cmds (cfg : Config) : List setup_cmd :=
  [SETUP_CMD_NOHANDLE "ATE0", SETUP_CMD_NOHANDLE "AT+CFUN=0",
   SETUP_CMD_NOHANDLE ("AT+UBANDMASK=0," ++ toString cfg.UBANDMASK_M1),
   SETUP_CMD_NOHANDLE ("AT+UBANDMASK=1," ++ toString cfg.UBANDMASK_NB1),
   SETUP_CMD_NOHANDLE "AT+CFUN=15"]

/-- The function `gsm_setup_ubandmask`. -/
def gsm_setup_ubandmask (cfg : Config) (tr : Transport) (s : State) : Int × State :=
  let q := modem_cmd_handler_setup_cmds_nolock tr ubandmask_query_cmds Sem.ublox s
  if q.1 < 0 then q
  else if q.2.drv.minfo.mdm_bandmask0 ≠ cfg.UBANDMASK_M1 ∨
      q.2.drv.minfo.mdm_bandmask1 ≠ cfg.UBANDMASK_NB1 then
    let r := modem_cmd_handler_setup_cmds_nolock tr (ubandmask_set_cmds cfg) Sem.caller q.2
    if r.1 < 0 then r else (-EAGAIN, r.2)
  else q

/-! ## Network status and hooks -/

/-- The function `gsm_poll_network_status`. -/
def gsm_poll_network_status (tr : Transport) (s : State) : Int × State :=
  let r := modem_cmd_send_nolock tr (some on_cmd_atcmdinfo_cind) "AT+CIND?" Sem.ublox s
  if r.1 < 0 then r
  else if r.2.drv.minfo.mdm_service ≠ 1 then (- EIO, r.2)
  else (0, r.2)

/-- The function `gsm_ppp_pre_connect_hook`. -/
def gsm_ppp_pre_connect_hook (tr : Transport) (s : State) : Int × State :=
  gsm_poll_network_status tr s

/-- The text `sprintf` writes for `"AT+COPS=1,2,%d"`. -/
def manual_cops (operator : Int) : String :=
  "AT+COPS=1,2," ++ toString operator

/-- The function `gsm_ppp_setup_hook`. -/
def gsm_ppp_setup_hook (cfg : Config) (ctx : modem_context) (tr : Transport) (s : State) :
    Int × State :=
  let r1 := gsm_setup_mnoprof cfg tr s
  if r1.1 < 0 then r1
  else
    let r2 := gsm_setup_psm tr r1.2
    if r2.1 < 0 then r2
    else
      let r3 := gsm_setup_urat cfg tr r2.2
      if r3.1 < 0 then r3
      else
        let r4 := gsm_setup_ubandmask cfg tr r3.2
        if r4.1 < 0 then r4
        else if cfg.CACHE_OPERATOR ∧ ctx.data_cached_operator = 0 then r4
        else
          let operator :=
            if cfg.CACHE_OPERATOR then ctx.data_cached_operator else ctx.data_operator
          let r5 := modem_cmd_send_nolock tr none (manual_cops operator) Sem.caller r4.2
          (r4.1, r5.2)

/-! ## The sequencer in the words of the specification -/

/-- The spec's sequencer (§4.4) over a list of steps: the steps run in the order
of the list, each from the state the one before it left; the first step with a
negative result (`Changed-NeedsRestart` or `Failed`) stops the sequence and its
result is returned; `none` when every step reports `Unchanged`. -/
def first_negative : List (State → Int × State) → State → Option (Int × State)
  | [], _ => none
  | step :: steps, s =>
    if (step s).1 < 0 then some (step s) else first_negative steps (step s).2

/-- The four convergence steps in the order Profile, PSM, RAT, BandMask. -/
def convergence_steps (cfg : Config) (tr : Transport) : List (State → Int × State) :=
  [gsm_setup_mnoprof cfg tr, gsm_setup_psm tr, gsm_setup_urat cfg tr,
   gsm_setup_ubandmask cfg tr]

/-- The transport `tr` fails the command `c` of a batch with the error `e`, after
it has acknowledged the commands `pre` sent before `c` in the batch; `hist` are
the commands sent before the batch. -/
def fails_at (tr : Transport) (hist : List String) (pre : List setup_cmd) (c : setup_cmd)
    (e : Nat) : Prop :=
  (∀ (p : List setup_cmd) (x : setup_cmd) (r : List setup_cmd), pre = p ++ x :: r →
      (tr (hist ++ p.map setup_cmd.send_cmd) x.send_cmd).errno = 0)
  ∧ (tr (hist ++ pre.map setup_cmd.send_cmd) c.send_cmd).errno = e ∧ 0 < e

/-! ## Response text -/

/-- The decimal text of an integer, as the modem writes it. -/
def decimal (n : Int) : List Char :=
  (toString n).data

/-- An `atoi` conversion stops in front of `rest`: at the end of the string or at
a character that is not a digit. -/
def stops (rest : List Char) : Prop :=
  ∀ c ∈ rest.head?, isdigit c = false

/-- The response line "+UBANDMASK: 0,<m0>,1,<m1>" with the masks in decimal. -/
def ubandmask_response (m0 m1 : Nat) : List Char :=
  "+UBANDMASK: 0,".data ++ decimal m0 ++ ",1,".data ++ decimal m1

/-! ## Sample inputs -/

/-- A transport that acknowledges every command and answers the four queries
with the given response lines. -/
def modem_replies (prof psm urat band : String) : Transport := fun _ cmd =>
  if cmd = "AT+UMNOPROF?" then { lines := [prof.data], errno := 0 }
  else if cmd = "AT+CPSMS?" then { lines := [psm.data], errno := 0 }
  else if cmd = "AT+URAT?" then { lines := [urat.data], errno := 0 }
  else if cmd = "AT+UBANDMASK?" then { lines := [band.data], errno := 0 }
  else { lines := [], errno := 0 }

/-- The driver variables at start-up: all zero. -/
def boot_state : State :=
  { drv := { minfo := ⟨0, 0, [], 0, 0, 0, 0, 0, 0⟩, ublox_sem := 0 }, sent := [] }

/-- A configuration: profile 100, RAT 7, band masks 524420 and 524288. -/
def sample_config : Config :=
  { MNOPROF := 100, URAT := "7", UBANDMASK_M1 := 524420, UBANDMASK_NB1 := 524288,
    CACHE_OPERATOR := false }

/-- A modem whose four values are the targets of `sample_config`. -/
def modem_on_target : Transport :=
  modem_replies "+UMNOPROF: 100" "+CPSMS: 0" "+URAT: 7" "+UBANDMASK: 0,524420,1,524288"

/-- A modem none of whose four values is the target of `sample_config`; its PSM
response has no space after the colon, so that the PSM parser stores 1. -/
def modem_off_target : Transport :=
  modem_replies "+UMNOPROF: 1" "+CPSMS:1" "+URAT: 8" "+UBANDMASK: 0,1,1,2"

/-- A transport like `modem_replies` on which the command `bad` fails with EIO. -/
def modem_failing (prof psm urat band bad : String) : Transport := fun h cmd =>
  if cmd = bad then { lines := [], errno := 5 } else modem_replies prof psm urat band h cmd

/-- A modem none of whose values is the target of `sample_config` and on which
the command AT+CFUN=0 fails with EIO. -/
def modem_failing_detach : Transport :=
  modem_failing "+UMNOPROF: 1" "+CPSMS: 0" "+URAT: 8" "+UBANDMASK: 0,1,1,2" "AT+CFUN=0"

/-! ## Response text of several fields -/

/-- Texts joined by commas. -/
def comma_join : List (List Char) → List Char
  | [] => []
  | [t] => t
  | t :: t' :: ts => t ++ ',' :: comma_join (t' :: ts)

/-- The comma-joined decimal text of a list of integers. -/
def fields_text (fs : List Int) : List Char :=
  comma_join (fs.map decimal)

/-- The fields of a list of (rat_index, mask_value) pairs, in the order of the
response line. -/
def pair_fields : List (Int × Int) → List Int
  | [] => []
  | p :: ps => p.1 :: p.2 :: pair_fields ps

/-- The response line "+UBANDMASK: " followed by the comma-separated
(rat_index, mask_value) pairs in decimal. -/
def ubandmask_pairs_response (ps : List (Int × Int)) : List Char :=
  "+UBANDMASK: ".data ++ fields_text (pair_fields ps)

/-- The band masks after a list of (rat_index, mask_value) pairs in the words of
the spec: a pair is honoured only when its rat_index is 0 or 1, any other pair
is discarded. -/
def apply_pairs : List (Int × Int) → modem_info → modem_info
  | [], m => m
  | p :: ps, m => apply_pairs ps (if p.1 = 0 ∨ p.1 = 1 then set_bandmask m p.1 p.2 else m)

/-- The `uint64_t` values that are conversions of an `int`: the values below
2 ^ 31 (of a non-negative int) and those from 2 ^ 64 - 2 ^ 31 on (of a negative
one). -/
def int_image (x : Nat) : Prop :=
  x < 2 ^ 31 ∨ 2 ^ 64 - 2 ^ 31 ≤ x

/-- The contract of a response parser on the completion signal: its result is 0
or -EINVAL; on success the signal is given (`k_sem_give`), so that a drained
signal becomes available; on failure the count is as it was; and the count
stays within the single slot. -/
def signal_contract (h : Handler) : Prop :=
  ∀ (l : List Char) (d : Driver),
    ((h l d).1 = 0 ∨ (h l d).1 = -EINVAL)
    ∧ ((h l d).1 = 0 → (h l d).2.ublox_sem = (k_sem_give d).ublox_sem)
    ∧ ((h l d).1 ≠ 0 → (h l d).2.ublox_sem = d.ublox_sem)
    ∧ (d.ublox_sem = 0 → ((h l d).2.ublox_sem = 1 ↔ (h l d).1 = 0))
    ∧ (d.ublox_sem ≤ 1 → (h l d).2.ublox_sem ≤ 1)

/-- The string literal in the declaration of the buffer `manual_cops`:
AT+COPS=1,2,"12345". -/
def manual_cops_template : String :=
  "AT+COPS=1,2,\x2212345\x22"

/-- The size in bytes of the buffer
`manual_cops[1 + sizeof("AT+COPS=1,2,\"12345\"")]`, where `sizeof` of a string
literal counts its characters and the terminating NUL. -/
def manual_cops_size : Nat :=
  1 + (manual_cops_template.length + 1)

/-- A transport that acknowledges every command and answers the query AT+CIND?
with the given response lines. -/
def modem_cind (resp : List String) : Transport := fun _ cmd =>
  if cmd = "AT+CIND?" then { lines := resp.map String.data, errno := 0 }
  else { lines := [], errno := 0 }

/-- Driver variables left by earlier queries: profile 100, RAT "7", band masks
524420 and 524288, network service 1. -/
def settled_state : State :=
  { drv := { minfo := ⟨100, 0, ['7'], 524420, 524288, 20, 1, 0, 1⟩, ublox_sem := 0 },
    sent := [] }

/-- The indicator fields in the words of the spec: the field at position `i` of
the response goes through the `switch (i)`, the fields taken in order from
position `i` on. -/
def cind_fields : List Int → Nat → modem_info → modem_info
  | [], _, m => m
  | f :: fs, i, m => cind_fields fs (i + 1) (cind_field i f m)

/-! ## Transport lemmas -/

theorem send_caller_none (tr : Transport) (cmd : String) (s : State) :
    modem_cmd_send_nolock tr none cmd Sem.caller s
      = (-((tr s.sent cmd).errno : Int), { drv := s.drv, sent := s.sent ++ [cmd] }) := rfl

theorem send_sent (tr : Transport) (func : Option Handler) (cmd : String) (sem : Sem)
    (s : State) : (modem_cmd_send_nolock tr func cmd sem s).2.sent = s.sent ++ [cmd] := by
  unfold modem_cmd_send_nolock
  cases sem
  · simp only []
    split <;> rfl
  · rfl

theorem setup_cmds_single (tr : Transport) (c : setup_cmd) (sem : Sem) (s : State) :
    modem_cmd_handler_setup_cmds_nolock tr [c] sem s
      = modem_cmd_send_nolock tr c.func c.send_cmd sem s := by
  simp only [modem_cmd_handler_setup_cmds_nolock, setup_cmds_loop]
  split <;> rfl

theorem query_sent (tr : Transport) (c : String) (h : Handler) (s : State) :
    (modem_cmd_handler_setup_cmds_nolock tr [SETUP_CMD c h] Sem.ublox s).2.sent
      = s.sent ++ [c] := by
  rw [setup_cmds_single, send_sent]; rfl

theorem cstr_nonul (l : List Char) : '\x00' ∉ cstr l := by
  intro h
  have := List.mem_takeWhile_imp h
  simp at this

theorem cstr_of_nonul {l : List Char} (h : '\x00' ∉ l) : cstr l = l := by
  unfold cstr
  rw [List.takeWhile_eq_self_iff]
  intro c hc
  have : c ≠ '\x00' := fun e => h (e ▸ hc)
  simpa using this

theorem strchr_suffix {p q : List Char} {x : Char} (h : strchr p x = some q) : q <:+ p := by
  induction p with
  | nil => simp [strchr] at h
  | cons c cs ih =>
    unfold strchr at h
    split at h
    · cases h; exact List.suffix_refl _
    · exact (ih h).trans (List.suffix_cons c cs)

theorem urat_nonul (line : List Char) (d : Driver) :
    '\x00' ∉ (on_cmd_atcmdinfo_urat line d).2.minfo.mdm_urat := by
  simp only [on_cmd_atcmdinfo_urat, k_sem_give]
  split
  · rename_i p hp
    intro h
    exact cstr_nonul _ ((strchr_suffix hp).subset (List.mem_of_mem_drop h))
  · exact cstr_nonul _

theorem urat_gives (line : List Char) (d : Driver) :
    0 < (on_cmd_atcmdinfo_urat line d).2.ublox_sem := by
  simp [on_cmd_atcmdinfo_urat, k_sem_give]

theorem query_urat_nonul (tr : Transport) (s : State)
    (h : 0 ≤ (modem_cmd_handler_setup_cmds_nolock tr urat_query_cmds Sem.ublox s).1) :
    '\x00' ∉ (modem_cmd_handler_setup_cmds_nolock tr urat_query_cmds Sem.ublox
      s).2.drv.minfo.mdm_urat := by
  unfold urat_query_cmds at h ⊢
  rw [setup_cmds_single] at h ⊢
  simp only [SETUP_CMD, modem_cmd_send_nolock] at h ⊢
  cases hl : (tr s.sent "AT+URAT?").lines with
  | nil =>
    rw [hl] at h
    simp [dispatch, ETIMEDOUT] at h
  | cons l ls =>
    simp only [dispatch, urat_gives, and_self, if_true, decide_True]
    exact urat_nonul _ _

theorem modem_replies_ack (a b c d : String) (h : List String) (cmd : String) :
    (modem_replies a b c d h cmd).errno = 0 := by
  unfold modem_replies
  split_ifs <;> rfl

theorem strcmp_of_ne {a b : List Char} (ha : '\x00' ∉ a) (hb : '\x00' ∉ b) (h : a ≠ b) :
    strcmp a b = true := by
  simp [strcmp, cstr_of_nonul ha, cstr_of_nonul hb, h]

theorem strcmp_self (a : List Char) : strcmp a a = false := by
  simp [strcmp]

theorem loop_ack (tr : Transport) (hack : ∀ (h : List String) (c : String), (tr h c).errno = 0) :
    ∀ (cmds : List setup_cmd) (ret : Int) (s : State), (∀ c ∈ cmds, c.func = none) →
      setup_cmds_loop tr Sem.caller cmds ret s
        = (if cmds.length = 0 then ret else 0,
           { drv := s.drv, sent := s.sent ++ cmds.map setup_cmd.send_cmd }) := by
  intro cmds
  induction cmds with
  | nil => intro ret s _; simp [setup_cmds_loop]
  | cons c cs ih =>
    intro ret s hn
    have hc : c.func = none := hn c (List.mem_cons_self _ _)
    simp only [setup_cmds_loop, hc, send_caller_none, hack]
    rw [if_neg (by simp), ih _ _ (fun x hx => hn x (List.mem_cons_of_mem _ hx))]
    simp

theorem batch_ack (tr : Transport) (hack : ∀ (h : List String) (c : String), (tr h c).errno = 0)
    (cmds : List setup_cmd) (hn : ∀ c ∈ cmds, c.func = none) (hne : cmds.length ≠ 0)
    (s : State) :
    modem_cmd_handler_setup_cmds_nolock tr cmds Sem.caller s
      = (0, { drv := s.drv, sent := s.sent ++ cmds.map setup_cmd.send_cmd }) := by
  rw [modem_cmd_handler_setup_cmds_nolock, loop_ack tr hack cmds 0 s hn, if_neg hne]

/-! ## Decimal text and `atoi` -/

theorem digitChar_isdigit : ∀ d, d < 10 →
    isdigit (Nat.digitChar d) = true ∧ (((Nat.digitChar d).toNat : Int) - 48 = (d : Int))
      ∧ Nat.digitChar d ≠ ',' ∧ Nat.digitChar d ≠ '\x00' := by
  decide

theorem toDigitsCore_acc (f : Nat) : ∀ (n : Nat) (ds : List Char),
    Nat.toDigitsCore 10 f n ds = Nat.toDigitsCore 10 f n [] ++ ds := by
  induction f with
  | zero => intro n ds; simp [Nat.toDigitsCore]
  | succ f ih =>
    intro n ds
    simp only [Nat.toDigitsCore]
    split
    · simp
    · rw [ih _ (_ :: ds), ih _ [_]]
      simp

theorem toDigitsCore_digits (f : Nat) : ∀ (n : Nat) (ds : List Char),
    ∀ c ∈ Nat.toDigitsCore 10 f n ds,
      (isdigit c = true ∧ c ≠ ',' ∧ c ≠ '\x00') ∨ c ∈ ds := by
  induction f with
  | zero => intro n ds c hc; exact Or.inr (by simpa [Nat.toDigitsCore] using hc)
  | succ f ih =>
    intro n ds c hc
    have hd := digitChar_isdigit (n % 10) (Nat.mod_lt _ (by decide))
    simp only [Nat.toDigitsCore] at hc
    split at hc
    · rcases List.mem_cons.mp hc with h | h
      · exact Or.inl (h ▸ ⟨hd.1, hd.2.2⟩)
      · exact Or.inr h
    · rcases ih _ _ c hc with h | h
      · exact Or.inl h
      · rcases List.mem_cons.mp h with h | h
        · exact Or.inl (h ▸ ⟨hd.1, hd.2.2⟩)
        · exact Or.inr h

theorem toDigits_digits (n : Nat) :
    ∀ c ∈ Nat.toDigits 10 n, isdigit c = true ∧ c ≠ ',' ∧ c ≠ '\x00' := by
  intro c hc
  rcases toDigitsCore_digits _ _ _ c hc with h | h
  · exact h
  · simp at h

theorem toDigits_ne_nil (n : Nat) : Nat.toDigits 10 n ≠ [] := by
  unfold Nat.toDigits
  simp only [Nat.toDigitsCore]
  split
  · simp
  · rw [toDigitsCore_acc]
    simp

theorem atoi_digits_core (f : Nat) : ∀ (n : Nat) (ds : List Char), n < f →
    ∃ k : Nat, ∀ acc : Int,
      atoi_digits (Nat.toDigitsCore 10 f n ds) acc = atoi_digits ds (acc * 10 ^ k + n) := by
  induction f with
  | zero => intro n ds h; omega
  | succ f ih =>
    intro n ds hn
    have hd := digitChar_isdigit (n % 10) (Nat.mod_lt _ (by decide))
    simp only [Nat.toDigitsCore]
    split
    · rename_i h0
      refine ⟨1, fun acc => ?_⟩
      have hn' : n % 10 = n := by omega
      simp only [atoi_digits, hd.1, if_true, hd.2.1]
      congr 1
      rw [hn']
      ring
    · rename_i h0
      obtain ⟨k, hk⟩ := ih (n / 10) (Nat.digitChar (n % 10) :: ds) (by omega)
      refine ⟨k + 1, fun acc => ?_⟩
      rw [hk acc]
      simp only [atoi_digits, hd.1, if_true, hd.2.1]
      congr 1
      have : (n : Int) = 10 * ((n / 10 : Nat) : Int) + ((n % 10 : Nat) : Int) := by
        have := Nat.div_add_mod n 10
        omega
      rw [this]
      push_cast
      ring

theorem atoi_digits_stops {rest : List Char} (h : stops rest) (n : Int) :
    atoi_digits rest n = n := by
  cases rest with
  | nil => rfl
  | cons c cs =>
    have : isdigit c = false := h c (by simp)
    simp [atoi_digits, this]

theorem atoi_digits_toDigits (n : Nat) {rest : List Char} (h : stops rest) :
    atoi_digits (Nat.toDigits 10 n ++ rest) 0 = n := by
  unfold Nat.toDigits
  rw [← toDigitsCore_acc]
  obtain ⟨k, hk⟩ := atoi_digits_core (n + 1) n rest (by omega)
  rw [hk 0, atoi_digits_stops h]
  simp

theorem isdigit_not_space {c : Char} (h : isdigit c = true) :
    isspace c = false ∧ c ≠ '-' ∧ c ≠ '+' := by
  simp only [isdigit, Bool.and_eq_true, decide_eq_true_eq] at h
  refine ⟨?_, ?_, ?_⟩
  · simp only [isspace, Bool.or_eq_false_iff, decide_eq_false_iff_not]
    refine ⟨⟨⟨⟨⟨?_, ?_⟩, ?_⟩, ?_⟩, ?_⟩, ?_⟩ <;>
      (intro e; rw [e] at h; revert h; decide)
  · intro e; rw [e] at h; revert h; decide
  · intro e; rw [e] at h; revert h; decide

theorem to_int_id {n : Int} (h1 : -2 ^ 31 ≤ n) (h2 : n < 2 ^ 31) : to_int n = n := by
  unfold to_int
  rw [Int.emod_eq_of_lt (by omega) (by omega)]
  omega

theorem atoi_digit_head (c : Char) (cs : List Char) (hc : isdigit c = true) :
    atoi (c :: cs) = to_int (atoi_digits (c :: cs) 0) := by
  have hs := isdigit_not_space hc
  unfold atoi
  simp only [List.dropWhile, hs.1, List.head?_cons, Option.some.injEq]
  rw [if_neg hs.2.1, if_neg hs.2.2]

theorem atoi_minus (cs : List Char) : atoi ('-' :: cs) = to_int (-(atoi_digits cs 0)) := by
  unfold atoi
  simp only [List.dropWhile, List.head?_cons, List.tail_cons]
  rw [show isspace '-' = false by decide]
  simp

theorem atoi_nat (n : Nat) {rest : List Char} (h : stops rest) (hn : (n : Int) < 2 ^ 31) :
    atoi (Nat.toDigits 10 n ++ rest) = n := by
  obtain ⟨c, cs, hcs⟩ := List.exists_cons_of_ne_nil (toDigits_ne_nil n)
  have hc := (toDigits_digits n c (by rw [hcs]; simp)).1
  have hv := atoi_digits_toDigits n h
  rw [hcs, List.cons_append] at hv
  rw [hcs, List.cons_append, atoi_digit_head _ _ hc, hv]
  exact to_int_id (by omega) hn

theorem decimal_ofNat (n : Nat) : decimal (n : Int) = Nat.toDigits 10 n := rfl

theorem decimal_negSucc (n : Nat) :
    decimal (Int.negSucc n) = '-' :: Nat.toDigits 10 (n + 1) := rfl

theorem atoi_decimal (n : Int) {rest : List Char} (h : stops rest)
    (h1 : -2 ^ 31 ≤ n) (h2 : n < 2 ^ 31) : atoi (decimal n ++ rest) = n := by
  cases n with
  | ofNat m => exact atoi_nat m h h2
  | negSucc m =>
    rw [decimal_negSucc, List.cons_append, atoi_minus, atoi_digits_toDigits (m + 1) h]
    rw [Int.negSucc_eq] at h1 h2 ⊢
    rw [to_int_id]
    · push_cast; ring
    · push_cast; omega
    · push_cast; omega

theorem decimal_chars (n : Int) : ∀ c ∈ decimal n, c ≠ ',' ∧ c ≠ '\x00' := by
  intro c hc
  cases n with
  | ofNat m => exact (toDigits_digits m c hc).2
  | negSucc m =>
    rw [decimal_negSucc] at hc
    rcases List.mem_cons.mp hc with h | h
    · rw [h]; decide
    · exact (toDigits_digits _ c h).2

theorem decimal_length_nat (n : Nat) (h : n < 2 ^ 31) : (decimal (n : Int)).length ≤ 10 :=
  Nat.repr_length n 10 (by decide) (by omega)

/-! ## C strings -/

theorem strchr_eq (x : Char) : ∀ (l : List Char),
    strchr l x = if x ∈ l then some (l.drop (l.indexOf x)) else none := by
  intro l
  induction l with
  | nil => simp [strchr]
  | cons c cs ih =>
    unfold strchr
    by_cases h : c = x
    · subst h
      simp
    · have h' : ¬ x = c := fun e => h e.symm
      rw [if_neg h, ih]
      simp [List.indexOf_cons, h, h']

theorem deref_drop (l : List Char) (i k : Nat) : deref (l.drop i) k = l.getD (i + k) '\x00' := by
  simp [deref, List.getD_eq_getElem?_getD, List.getElem?_drop]

theorem net_buf_text {cap : Nat} {line : List Char} (hlen : line.length ≤ cap)
    (hnul : '\x00' ∉ line) : cstr (net_buf_linearize cap line) = line := by
  rw [net_buf_linearize, List.take_of_length_le hlen, cstr_of_nonul hnul]

/-! ## C1: the apply batch -/

theorem mnoprof_apply (cfg : Config) (tr : Transport) (s : State) :
    let q := modem_cmd_handler_setup_cmds_nolock tr mnoprof_query_cmds Sem.ublox s
    0 ≤ q.1 → q.2.drv.minfo.mdm_mnoprof ≠ -1 →
      q.2.drv.minfo.mdm_mnoprof ≠ cfg.MNOPROF →
      gsm_setup_mnoprof cfg tr s = (-EAGAIN, { drv := q.2.drv, sent := s.sent ++
        ["AT+UMNOPROF?", "AT+CFUN=0", "AT+UMNOPROF=" ++ toString cfg.MNOPROF,
         "AT+CFUN=15"] }) := by
  intro q hq h1 h2
  have hs : q.2.sent = s.sent ++ ["AT+UMNOPROF?"] := query_sent tr _ _ s
  have e : modem_cmd_handler_setup_cmds_nolock tr mnoprof_query_cmds Sem.ublox s = q := rfl
  clear_value q
  simp only [gsm_setup_mnoprof, e]
  rw [if_neg (not_lt.mpr hq), if_pos ⟨h1, h2⟩]
  simp [send_caller_none, hs]

/-- C1 (amended). When the Profile query stored a valid profile other than the
target, the Profile step sends after the query exactly AT+CFUN=0,
AT+UMNOPROF=target, AT+CFUN=15 (no ATE0) and returns -EAGAIN, whether or not
these commands are acknowledged. When every command is acknowledged and the
value stored by the query differs from the target, the PSM, RAT and BandMask
steps send, after the query, exactly ATE0, AT+CFUN=0, the corrective command(s),
AT+CFUN=15, and return -EAGAIN. -/
theorem C1_apply_batch (cfg : Config) (tr : Transport) (s : State) :
    (let q := modem_cmd_handler_setup_cmds_nolock tr mnoprof_query_cmds Sem.ublox s
     0 ≤ q.1 → q.2.drv.minfo.mdm_mnoprof ≠ -1 →
      q.2.drv.minfo.mdm_mnoprof ≠ cfg.MNOPROF →
      gsm_setup_mnoprof cfg tr s = (-EAGAIN, { drv := q.2.drv, sent := s.sent ++
        ["AT+UMNOPROF?", "AT+CFUN=0", "AT+UMNOPROF=" ++ toString cfg.MNOPROF,
         "AT+CFUN=15"] }))
    ∧ ((∀ (h : List String) (c : String), (tr h c).errno = 0) →
      (let q := modem_cmd_handler_setup_cmds_nolock tr psm_query_cmds Sem.ublox s
       0 ≤ q.1 → q.2.drv.minfo.mdm_psm = 1 →
        gsm_setup_psm tr s = (-EAGAIN, { drv := q.2.drv, sent := s.sent ++
          ["AT+CPSMS?", "ATE0", "AT+CFUN=0", "AT+CPSMS=0", "AT+CFUN=15"] }))
      ∧ (let q := modem_cmd_handler_setup_cmds_nolock tr urat_query_cmds Sem.ublox s
       0 ≤ q.1 → '\x00' ∉ cfg.URAT.data → q.2.drv.minfo.mdm_urat ≠ cfg.URAT.data →
        gsm_setup_urat cfg tr s = (-EAGAIN, { drv := q.2.drv, sent := s.sent ++
          ["AT+URAT?", "ATE0", "AT+CFUN=0", "AT+URAT=" ++ cfg.URAT, "AT+CFUN=15"] }))
      ∧ (let q := modem_cmd_handler_setup_cmds_nolock tr ubandmask_query_cmds Sem.ublox s
       0 ≤ q.1 → (q.2.drv.minfo.mdm_bandmask0 ≠ cfg.UBANDMASK_M1 ∨
          q.2.drv.minfo.mdm_bandmask1 ≠ cfg.UBANDMASK_NB1) →
        gsm_setup_ubandmask cfg tr s = (-EAGAIN, { drv := q.2.drv, sent := s.sent ++
          ["AT+UBANDMASK?", "ATE0", "AT+CFUN=0",
           "AT+UBANDMASK=0," ++ toString cfg.UBANDMASK_M1,
           "AT+UBANDMASK=1," ++ toString cfg.UBANDMASK_NB1, "AT+CFUN=15"] }))) := by
  refine ⟨mnoprof_apply cfg tr s, fun hack => ⟨?_, ?_, ?_⟩⟩
  · intro q hq h1
    have hs : q.2.sent = s.sent ++ ["AT+CPSMS?"] := query_sent tr _ _ s
    have e : modem_cmd_handler_setup_cmds_nolock tr psm_query_cmds Sem.ublox s = q := rfl
    clear_value q
    simp only [gsm_setup_psm, e]
    rw [if_neg (not_lt.mpr hq), if_pos h1, batch_ack tr hack _
      (by simp [psm_set_cmds, SETUP_CMD_NOHANDLE]) (by simp [psm_set_cmds])]
    simp [psm_set_cmds, SETUP_CMD_NOHANDLE, hs]
  · intro q hq h0 h1
    have hs : q.2.sent = s.sent ++ ["AT+URAT?"] := query_sent tr _ _ s
    have hc := strcmp_of_ne (query_urat_nonul tr s hq) h0 h1
    have e : modem_cmd_handler_setup_cmds_nolock tr urat_query_cmds Sem.ublox s = q := rfl
    clear_value q
    rw [e] at hc
    simp only [gsm_setup_urat, e]
    rw [if_neg (not_lt.mpr hq), if_pos hc, batch_ack tr hack _
      (by simp [urat_set_cmds, SETUP_CMD_NOHANDLE]) (by simp [urat_set_cmds])]
    simp [urat_set_cmds, SETUP_CMD_NOHANDLE, hs]
  · intro q hq h1
    have hs : q.2.sent = s.sent ++ ["AT+UBANDMASK?"] := query_sent tr _ _ s
    have e : modem_cmd_handler_setup_cmds_nolock tr ubandmask_query_cmds Sem.ublox s = q := rfl
    clear_value q
    simp only [gsm_setup_ubandmask, e]
    rw [if_neg (not_lt.mpr hq), if_pos h1, batch_ack tr hack _
      (by simp [ubandmask_set_cmds, SETUP_CMD_NOHANDLE]) (by simp [ubandmask_set_cmds])]
    simp [ubandmask_set_cmds, SETUP_CMD_NOHANDLE, hs]

/-- C1, witness: a modem none of whose four values is the configured one; and
the Profile step on a modem that fails AT+CFUN=0. -/
theorem C1_apply_batch_witness :
    gsm_setup_mnoprof sample_config modem_off_target boot_state
      = (-EAGAIN, { drv := { minfo := ⟨1, 0, [], 0, 0, 0, 0, 0, 0⟩, ublox_sem := 0 },
                    sent := ["AT+UMNOPROF?", "AT+CFUN=0", "AT+UMNOPROF=100", "AT+CFUN=15"] })
    ∧ gsm_setup_psm modem_off_target boot_state
      = (-EAGAIN, { drv := { minfo := ⟨0, 1, [], 0, 0, 0, 0, 0, 0⟩, ublox_sem := 0 },
                    sent := ["AT+CPSMS?", "ATE0", "AT+CFUN=0", "AT+CPSMS=0", "AT+CFUN=15"] })
    ∧ gsm_setup_urat sample_config modem_off_target boot_state
      = (-EAGAIN, { drv := { minfo := ⟨0, 0, ['8'], 0, 0, 0, 0, 0, 0⟩, ublox_sem := 0 },
                    sent := ["AT+URAT?", "ATE0", "AT+CFUN=0", "AT+URAT=7", "AT+CFUN=15"] })
    ∧ gsm_setup_ubandmask sample_config modem_off_target boot_state
      = (-EAGAIN, { drv := { minfo := ⟨0, 0, [], 1, 2, 0, 0, 0, 0⟩, ublox_sem := 0 },
                    sent := ["AT+UBANDMASK?", "ATE0", "AT+CFUN=0", "AT+UBANDMASK=0,524420",
                             "AT+UBANDMASK=1,524288", "AT+CFUN=15"] })
    ∧ gsm_setup_mnoprof sample_config modem_failing_detach boot_state
      = (-EAGAIN, { drv := { minfo := ⟨1, 0, [], 0, 0, 0, 0, 0, 0⟩, ublox_sem := 0 },
                    sent := ["AT+UMNOPROF?", "AT+CFUN=0", "AT+UMNOPROF=100", "AT+CFUN=15"] }) :=
  ⟨(C1_apply_batch sample_config modem_off_target boot_state).1
      (by decide) (by decide) (by decide),
   ((C1_apply_batch sample_config modem_off_target boot_state).2
      (modem_replies_ack _ _ _ _)).1 (by decide) (by decide),
   ((C1_apply_batch sample_config modem_off_target boot_state).2
      (modem_replies_ack _ _ _ _)).2.1 (by decide) (by decide) (by decide),
   ((C1_apply_batch sample_config modem_off_target boot_state).2
      (modem_replies_ack _ _ _ _)).2.2 (by decide) (by decide),
   (C1_apply_batch sample_config modem_failing_detach boot_state).1
      (by decide) (by decide) (by decide)⟩

/-- C1, counterexample: every command is acknowledged, the Profile query stores
profile 1 where 100 is configured, and the commands the Profile step sends after
its query are AT+CFUN=0, AT+UMNOPROF=100, AT+CFUN=15, not the batch of the claim
that starts with ATE0. -/
theorem C1_counterexample :
    (∀ (h : List String) (c : String), (modem_off_target h c).errno = 0)
    ∧ (modem_cmd_handler_setup_cmds_nolock modem_off_target mnoprof_query_cmds Sem.ublox
        boot_state).2.drv.minfo.mdm_mnoprof = 1
    ∧ sample_config.MNOPROF = 100
    ∧ (gsm_setup_mnoprof sample_config modem_off_target boot_state).2.sent
        = ["AT+UMNOPROF?", "AT+CFUN=0", "AT+UMNOPROF=100", "AT+CFUN=15"]
    ∧ (gsm_setup_mnoprof sample_config modem_off_target boot_state).2.sent
        ≠ ["AT+UMNOPROF?", "ATE0", "AT+CFUN=0", "AT+UMNOPROF=100", "AT+CFUN=15"] :=
  ⟨modem_replies_ack _ _ _ _, by decide, by decide, by decide, by decide⟩

/-! ## C2: a step whose query finds the target sends nothing else -/

/-- C2. For each of the four steps: when the query succeeds and the value it
stored equals the target (profile equal to the target, PSM flag other than 1,
RAT string equal to the target, both band masks equal to their targets), the
step returns the non-negative result of the query, and the query command is the
only command it sent. -/
theorem C2_unchanged_sends_query_only (cfg : Config) (tr : Transport) (s : State) :
    (let q := modem_cmd_handler_setup_cmds_nolock tr mnoprof_query_cmds Sem.ublox s
     0 ≤ q.1 → q.2.drv.minfo.mdm_mnoprof = cfg.MNOPROF →
      gsm_setup_mnoprof cfg tr s = q ∧ 0 ≤ (gsm_setup_mnoprof cfg tr s).1
        ∧ (gsm_setup_mnoprof cfg tr s).2.sent = s.sent ++ ["AT+UMNOPROF?"])
    ∧ (let q := modem_cmd_handler_setup_cmds_nolock tr psm_query_cmds Sem.ublox s
     0 ≤ q.1 → q.2.drv.minfo.mdm_psm ≠ 1 →
      gsm_setup_psm tr s = q ∧ 0 ≤ (gsm_setup_psm tr s).1
        ∧ (gsm_setup_psm tr s).2.sent = s.sent ++ ["AT+CPSMS?"])
    ∧ (let q := modem_cmd_handler_setup_cmds_nolock tr urat_query_cmds Sem.ublox s
     0 ≤ q.1 → q.2.drv.minfo.mdm_urat = cfg.URAT.data →
      gsm_setup_urat cfg tr s = q ∧ 0 ≤ (gsm_setup_urat cfg tr s).1
        ∧ (gsm_setup_urat cfg tr s).2.sent = s.sent ++ ["AT+URAT?"])
    ∧ (let q := modem_cmd_handler_setup_cmds_nolock tr ubandmask_query_cmds Sem.ublox s
     0 ≤ q.1 → q.2.drv.minfo.mdm_bandmask0 = cfg.UBANDMASK_M1 →
      q.2.drv.minfo.mdm_bandmask1 = cfg.UBANDMASK_NB1 →
      gsm_setup_ubandmask cfg tr s = q ∧ 0 ≤ (gsm_setup_ubandmask cfg tr s).1
        ∧ (gsm_setup_ubandmask cfg tr s).2.sent = s.sent ++ ["AT+UBANDMASK?"]) := by
  refine ⟨?_, ?_, ?_, ?_⟩
  · intro q hq h1
    have hs : q.2.sent = s.sent ++ ["AT+UMNOPROF?"] := query_sent tr _ _ s
    have e : modem_cmd_handler_setup_cmds_nolock tr mnoprof_query_cmds Sem.ublox s = q := rfl
    clear_value q
    have : gsm_setup_mnoprof cfg tr s = q := by
      simp only [gsm_setup_mnoprof, e]
      rw [if_neg (not_lt.mpr hq), if_neg (fun h => h.2 h1)]
    rw [this]
    exact ⟨rfl, hq, hs⟩
  · intro q hq h1
    have hs : q.2.sent = s.sent ++ ["AT+CPSMS?"] := query_sent tr _ _ s
    have e : modem_cmd_handler_setup_cmds_nolock tr psm_query_cmds Sem.ublox s = q := rfl
    clear_value q
    have : gsm_setup_psm tr s = q := by
      simp only [gsm_setup_psm, e]
      rw [if_neg (not_lt.mpr hq), if_neg h1]
    rw [this]
    exact ⟨rfl, hq, hs⟩
  · intro q hq h1
    have hs : q.2.sent = s.sent ++ ["AT+URAT?"] := query_sent tr _ _ s
    have e : modem_cmd_handler_setup_cmds_nolock tr urat_query_cmds Sem.ublox s = q := rfl
    clear_value q
    have : gsm_setup_urat cfg tr s = q := by
      simp only [gsm_setup_urat, e]
      rw [if_neg (not_lt.mpr hq), h1, strcmp_self]
      simp
    rw [this]
    exact ⟨rfl, hq, hs⟩
  · intro q hq h1 h2
    have hs : q.2.sent = s.sent ++ ["AT+UBANDMASK?"] := query_sent tr _ _ s
    have e : modem_cmd_handler_setup_cmds_nolock tr ubandmask_query_cmds Sem.ublox s = q := rfl
    clear_value q
    have : gsm_setup_ubandmask cfg tr s = q := by
      simp only [gsm_setup_ubandmask, e]
      rw [if_neg (not_lt.mpr hq), if_neg (by simp [h1, h2])]
    rw [this]
    exact ⟨rfl, hq, hs⟩

/-- C2, witness: a modem whose four values are the configured ones; every step
returns 0 and sends its query only. -/
theorem C2_unchanged_sends_query_only_witness :
    (gsm_setup_mnoprof sample_config modem_on_target boot_state).2.sent = ["AT+UMNOPROF?"]
    ∧ (gsm_setup_psm modem_on_target boot_state).2.sent = ["AT+CPSMS?"]
    ∧ gsm_setup_urat sample_config modem_on_target boot_state
      = (0, { drv := { minfo := ⟨0, 0, ['7'], 0, 0, 0, 0, 0, 0⟩, ublox_sem := 0 },
              sent := ["AT+URAT?"] })
    ∧ (gsm_setup_ubandmask sample_config modem_on_target boot_state).2.sent
        = ["AT+UBANDMASK?"] :=
  ⟨((C2_unchanged_sends_query_only sample_config modem_on_target boot_state).1
      (by decide) (by decide)).2.2,
   ((C2_unchanged_sends_query_only sample_config modem_on_target boot_state).2.1
      (by decide) (by decide)).2.2,
   ((C2_unchanged_sends_query_only sample_config modem_on_target boot_state).2.2.1
      (by decide) (by decide)).1,
   ((C2_unchanged_sends_query_only sample_config modem_on_target boot_state).2.2.2
      (by decide) (by decide) (by decide)).2.2⟩

/-! ## C3 and C4: the setup hook -/

theorem send_nonpos (tr : Transport) (func : Option Handler) (cmd : String) (sem : Sem)
    (s : State) : (modem_cmd_send_nolock tr func cmd sem s).1 ≤ 0 := by
  unfold modem_cmd_send_nolock
  cases sem
  · simp only []
    split
    · simp
    · simp [ETIMEDOUT]
  · simp

theorem query_nonneg_zero (tr : Transport) (c : String) (h : Handler) (s : State)
    (hq : 0 ≤ (modem_cmd_handler_setup_cmds_nolock tr [SETUP_CMD c h] Sem.ublox s).1) :
    (modem_cmd_handler_setup_cmds_nolock tr [SETUP_CMD c h] Sem.ublox s).1 = 0 := by
  rw [setup_cmds_single] at hq ⊢
  exact le_antisymm (send_nonpos _ _ _ _ _) hq

theorem mnoprof_nonneg (cfg : Config) (tr : Transport) (s : State)
    (h : ¬ (gsm_setup_mnoprof cfg tr s).1 < 0) :
    (gsm_setup_mnoprof cfg tr s).1 = 0
      ∧ (gsm_setup_mnoprof cfg tr s).2.sent = s.sent ++ ["AT+UMNOPROF?"] := by
  have hs := query_sent tr "AT+UMNOPROF?" on_cmd_atcmdinfo_mnoprof s
  have hz := query_nonneg_zero tr "AT+UMNOPROF?" on_cmd_atcmdinfo_mnoprof s
  simp only [gsm_setup_mnoprof, mnoprof_query_cmds] at h ⊢
  split_ifs at h ⊢ with h1 h2
  · exact absurd h1 h
  · simp [EAGAIN] at h
  · exact ⟨hz (not_lt.mp h1), hs⟩

theorem psm_nonneg (tr : Transport) (s : State) (h : ¬ (gsm_setup_psm tr s).1 < 0) :
    (gsm_setup_psm tr s).1 = 0 ∧ (gsm_setup_psm tr s).2.sent = s.sent ++ ["AT+CPSMS?"] := by
  have hs := query_sent tr "AT+CPSMS?" on_cmd_atcmdinfo_psm s
  have hz := query_nonneg_zero tr "AT+CPSMS?" on_cmd_atcmdinfo_psm s
  simp only [gsm_setup_psm, psm_query_cmds] at h ⊢
  split_ifs at h ⊢ with h1 h2 h3
  · exact absurd h1 h
  · exact absurd h3 h
  · simp [EAGAIN] at h
  · exact ⟨hz (not_lt.mp h1), hs⟩

theorem urat_nonneg (cfg : Config) (tr : Transport) (s : State)
    (h : ¬ (gsm_setup_urat cfg tr s).1 < 0) :
    (gsm_setup_urat cfg tr s).1 = 0
      ∧ (gsm_setup_urat cfg tr s).2.sent = s.sent ++ ["AT+URAT?"] := by
  have hs := query_sent tr "AT+URAT?" on_cmd_atcmdinfo_urat s
  have hz := query_nonneg_zero tr "AT+URAT?" on_cmd_atcmdinfo_urat s
  simp only [gsm_setup_urat, urat_query_cmds] at h ⊢
  split_ifs at h ⊢ with h1 h2 h3
  · exact absurd h1 h
  · exact absurd h3 h
  · simp [EAGAIN] at h
  · exact ⟨hz (not_lt.mp h1), hs⟩

theorem ubandmask_nonneg (cfg : Config) (tr : Transport) (s : State)
    (h : ¬ (gsm_setup_ubandmask cfg tr s).1 < 0) :
    (gsm_setup_ubandmask cfg tr s).1 = 0
      ∧ (gsm_setup_ubandmask cfg tr s).2.sent = s.sent ++ ["AT+UBANDMASK?"] := by
  have hs := query_sent tr "AT+UBANDMASK?" on_cmd_atcmdinfo_ubandmask s
  have hz := query_nonneg_zero tr "AT+UBANDMASK?" on_cmd_atcmdinfo_ubandmask s
  simp only [gsm_setup_ubandmask, ubandmask_query_cmds] at h ⊢
  split_ifs at h ⊢ with h1 h2 h3
  · exact absurd h1 h
  · exact absurd h3 h
  · simp [EAGAIN] at h
  · exact ⟨hz (not_lt.mp h1), hs⟩

/-- C3. For every behaviour of the transport, `gsm_ppp_setup_hook` runs the
steps in the order Profile, PSM, RAT, BandMask: when `r` is the result and state
of the first step with a negative result, the hook returns that result in that
very state, so nothing was sent after that step, neither a command of a later
step nor the operator selection. -/
theorem C3_first_negative_step_wins (cfg : Config) (ctx : modem_context) (tr : Transport)
    (s : State) (r : Int × State)
    (h : first_negative (convergence_steps cfg tr) s = some r) :
    gsm_ppp_setup_hook cfg ctx tr s = r ∧ r.1 < 0 := by
  simp only [convergence_steps, first_negative] at h
  simp only [gsm_ppp_setup_hook]
  split_ifs at h ⊢ <;> (cases h; exact ⟨rfl, by assumption⟩)

/-- C3, witness: the modem reports RAT 8 where 7 is configured, and band masks
that are not the configured ones; the RAT step applies its batch and the hook
stops there with -EAGAIN, before the BandMask query. -/
theorem C3_first_negative_step_wins_witness :
    gsm_ppp_setup_hook sample_config ⟨24001, 0⟩
        (modem_replies "+UMNOPROF: 100" "+CPSMS: 0" "+URAT: 8" "+UBANDMASK: 0,1,1,2")
        boot_state
      = (-11, { drv := { minfo := ⟨100, -16, ['8'], 0, 0, 0, 0, 0, 0⟩, ublox_sem := 0 },
                sent := ["AT+UMNOPROF?", "AT+CPSMS?", "AT+URAT?", "ATE0", "AT+CFUN=0",
                         "AT+URAT=7", "AT+CFUN=15"] })
    ∧ (-11 : Int) < 0 :=
  C3_first_negative_step_wins sample_config ⟨24001, 0⟩
    (modem_replies "+UMNOPROF: 100" "+CPSMS: 0" "+URAT: 8" "+UBANDMASK: 0,1,1,2")
    boot_state _ (by decide)

theorem all_unchanged (cfg : Config) (tr : Transport) (s : State)
    (h : first_negative (convergence_steps cfg tr) s = none) :
    let r1 := gsm_setup_mnoprof cfg tr s
    let r2 := gsm_setup_psm tr r1.2
    let r3 := gsm_setup_urat cfg tr r2.2
    let r4 := gsm_setup_ubandmask cfg tr r3.2
    ¬ r1.1 < 0 ∧ ¬ r2.1 < 0 ∧ ¬ r3.1 < 0 ∧ ¬ r4.1 < 0 := by
  simp only [convergence_steps, first_negative] at h
  split_ifs at h with h1 h2 h3 h4
  exact ⟨h1, h2, h3, h4⟩

/-- C4 (amended). Whenever all four convergence steps report Unchanged in one
pass of `gsm_ppp_setup_hook`, the hook returns ok (0) whatever the transport
answers, and the commands of the pass are the four queries followed by the
manual operator selection "AT+COPS=1,2,<operator id>", sent once; only when
operator caching is configured and no operator is cached (id 0) the operator
selection is not sent at all. -/
theorem C4_operator_selection (cfg : Config) (ctx : modem_context) (tr : Transport)
    (s : State) (h : first_negative (convergence_steps cfg tr) s = none) :
    (gsm_ppp_setup_hook cfg ctx tr s).1 = 0
    ∧ (gsm_ppp_setup_hook cfg ctx tr s).2.sent
        = s.sent ++ ["AT+UMNOPROF?", "AT+CPSMS?", "AT+URAT?", "AT+UBANDMASK?"]
          ++ (if cfg.CACHE_OPERATOR = true ∧ ctx.data_cached_operator = 0 then []
              else ["AT+COPS=1,2," ++ toString
                (if cfg.CACHE_OPERATOR = true then ctx.data_cached_operator
                 else ctx.data_operator)]) := by
  obtain ⟨h1, h2, h3, h4⟩ := all_unchanged cfg tr s h
  have e1 := mnoprof_nonneg cfg tr s h1
  have e2 := psm_nonneg tr _ h2
  have e3 := urat_nonneg cfg tr _ h3
  have e4 := ubandmask_nonneg cfg tr _ h4
  simp only [gsm_ppp_setup_hook]
  rw [if_neg h1, if_neg h2, if_neg h3, if_neg h4]
  by_cases hc : cfg.CACHE_OPERATOR = true ∧ ctx.data_cached_operator = 0
  · rw [if_pos hc, if_pos hc]
    refine ⟨e4.1, ?_⟩
    rw [e4.2, e3.2, e2.2, e1.2]
    simp
  · rw [if_neg hc, if_neg hc]
    refine ⟨e4.1, ?_⟩
    show (modem_cmd_send_nolock tr none _ Sem.caller _).2.sent = _
    rw [send_sent, e4.2, e3.2, e2.2, e1.2]
    simp [manual_cops]

/-- C4, witness: all four values match and the operator selection fails with
EIO; the hook still returns 0 and the command was sent once. -/
theorem C4_operator_selection_witness :
    (gsm_ppp_setup_hook sample_config ⟨24001, 0⟩
        (modem_failing "+UMNOPROF: 100" "+CPSMS: 0" "+URAT: 7" "+UBANDMASK: 0,524420,1,524288"
          "AT+COPS=1,2,24001")
        boot_state).1 = 0
    ∧ (gsm_ppp_setup_hook sample_config ⟨24001, 0⟩
        (modem_failing "+UMNOPROF: 100" "+CPSMS: 0" "+URAT: 7" "+UBANDMASK: 0,524420,1,524288"
          "AT+COPS=1,2,24001")
        boot_state).2.sent
      = ["AT+UMNOPROF?", "AT+CPSMS?", "AT+URAT?", "AT+UBANDMASK?", "AT+COPS=1,2,24001"] :=
  C4_operator_selection sample_config ⟨24001, 0⟩
    (modem_failing "+UMNOPROF: 100" "+CPSMS: 0" "+URAT: 7" "+UBANDMASK: 0,524420,1,524288"
      "AT+COPS=1,2,24001")
    boot_state (by decide)

/-- C4, counterexample: with operator caching configured and no cached operator,
all four steps report Unchanged and the hook returns 0, yet no operator
selection is sent: the four queries are all the commands of the pass. -/
theorem C4_counterexample :
    first_negative (convergence_steps { sample_config with CACHE_OPERATOR := true }
        modem_on_target) boot_state = none
    ∧ gsm_ppp_setup_hook { sample_config with CACHE_OPERATOR := true } ⟨24001, 0⟩
        modem_on_target
        boot_state
      = (0, { drv := { minfo := ⟨100, -16, ['7'], 524420, 524288, 0, 0, 0, 0⟩, ublox_sem := 0 },
              sent := ["AT+UMNOPROF?", "AT+CPSMS?", "AT+URAT?", "AT+UBANDMASK?"] }) := by
  decide

/-! ## C5: a failing apply command -/

theorem loop_fail (tr : Transport) (c : setup_cmd) (post : List setup_cmd) (e : Nat)
    (hc : c.func = none) :
    ∀ (pre : List setup_cmd) (ret : Int) (s : State), (∀ x ∈ pre, x.func = none) →
      fails_at tr s.sent pre c e →
      setup_cmds_loop tr Sem.caller (pre ++ c :: post) ret s
        = (-(e : Int),
          { drv := s.drv, sent := s.sent ++ pre.map setup_cmd.send_cmd ++ [c.send_cmd] }) := by
  intro pre
  induction pre with
  | nil =>
    intro ret s _ hf
    obtain ⟨-, he, hpos⟩ := hf
    simp only [List.map_nil, List.append_nil] at he
    simp only [List.nil_append, setup_cmds_loop, hc, send_caller_none, he]
    rw [if_pos (by omega)]
    simp
  | cons a pre ih =>
    intro ret s hn hf
    obtain ⟨hack, he, hpos⟩ := hf
    have ha : a.func = none := hn a (List.mem_cons_self _ _)
    have h0 : (tr s.sent a.send_cmd).errno = 0 := by
      have := hack [] a pre rfl
      simpa using this
    simp only [List.cons_append, setup_cmds_loop, ha, send_caller_none, h0]
    rw [if_neg (by simp)]
    show setup_cmds_loop tr Sem.caller (pre ++ c :: post) _ _ = _
    rw [ih _ _ (fun x hx => hn x (List.mem_cons_of_mem _ hx))]
    · simp
    · refine ⟨?_, ?_, hpos⟩
      · intro p x r hp
        have := hack (a :: p) x r (by rw [hp]; rfl)
        simpa using this
      · simpa using he

theorem batch_fail (tr : Transport) (cmds pre : List setup_cmd) (c : setup_cmd)
    (post : List setup_cmd) (e : Nat) (s : State) (hn : ∀ x ∈ cmds, x.func = none)
    (hsplit : cmds = pre ++ c :: post) (hf : fails_at tr s.sent pre c e) :
    modem_cmd_handler_setup_cmds_nolock tr cmds Sem.caller s
      = (-(e : Int),
          { drv := s.drv, sent := s.sent ++ pre.map setup_cmd.send_cmd ++ [c.send_cmd] }) := by
  subst hsplit
  rw [modem_cmd_handler_setup_cmds_nolock]
  exact loop_fail tr c post e (hn c (by simp)) pre 0 s (fun x hx => hn x (by simp [hx])) hf

/-- C5 (amended). In the PSM, RAT and BandMask steps, when a mismatch was
detected and a command `c` of the apply batch fails with the error `e` (the
commands `pre` before it in the batch acknowledged), the step returns `-e`, which
is not the needs-restart code unless `e` is EAGAIN, and `c` is the last command
it sent. The Profile step does not report a failing apply command: after a
mismatch, whatever the transport answers to them, it sends its three apply
commands AT+CFUN=0, AT+UMNOPROF=target, AT+CFUN=15 and returns -EAGAIN. -/
theorem C5_apply_failure (cfg : Config) (tr : Transport) (s : State)
    (pre : List setup_cmd) (c : setup_cmd) (post : List setup_cmd) (e : Nat) :
    (let q := modem_cmd_handler_setup_cmds_nolock tr psm_query_cmds Sem.ublox s
     0 ≤ q.1 → q.2.drv.minfo.mdm_psm = 1 →
      psm_set_cmds = pre ++ c :: post → fails_at tr q.2.sent pre c e →
      gsm_setup_psm tr s = (-(e : Int),
          { drv := q.2.drv, sent := q.2.sent ++ pre.map setup_cmd.send_cmd ++ [c.send_cmd] })
      ∧ ((e : Int) ≠ EAGAIN → (gsm_setup_psm tr s).1 ≠ -EAGAIN))
    ∧ (let q := modem_cmd_handler_setup_cmds_nolock tr urat_query_cmds Sem.ublox s
     0 ≤ q.1 → strcmp q.2.drv.minfo.mdm_urat cfg.URAT.data = true →
      urat_set_cmds cfg = pre ++ c :: post → fails_at tr q.2.sent pre c e →
      gsm_setup_urat cfg tr s = (-(e : Int),
          { drv := q.2.drv, sent := q.2.sent ++ pre.map setup_cmd.send_cmd ++ [c.send_cmd] })
      ∧ ((e : Int) ≠ EAGAIN → (gsm_setup_urat cfg tr s).1 ≠ -EAGAIN))
    ∧ (let q := modem_cmd_handler_setup_cmds_nolock tr ubandmask_query_cmds Sem.ublox s
     0 ≤ q.1 → (q.2.drv.minfo.mdm_bandmask0 ≠ cfg.UBANDMASK_M1 ∨
        q.2.drv.minfo.mdm_bandmask1 ≠ cfg.UBANDMASK_NB1) →
      ubandmask_set_cmds cfg = pre ++ c :: post → fails_at tr q.2.sent pre c e →
      gsm_setup_ubandmask cfg tr s = (-(e : Int),
          { drv := q.2.drv, sent := q.2.sent ++ pre.map setup_cmd.send_cmd ++ [c.send_cmd] })
      ∧ ((e : Int) ≠ EAGAIN → (gsm_setup_ubandmask cfg tr s).1 ≠ -EAGAIN))
    ∧ (let q := modem_cmd_handler_setup_cmds_nolock tr mnoprof_query_cmds Sem.ublox s
     0 ≤ q.1 → q.2.drv.minfo.mdm_mnoprof ≠ -1 →
      q.2.drv.minfo.mdm_mnoprof ≠ cfg.MNOPROF →
      gsm_setup_mnoprof cfg tr s = (-EAGAIN, { drv := q.2.drv, sent := s.sent ++
        ["AT+UMNOPROF?", "AT+CFUN=0", "AT+UMNOPROF=" ++ toString cfg.MNOPROF,
         "AT+CFUN=15"] })) := by
  refine ⟨?_, ?_, ?_, ?_⟩
  · intro q hq h1 hsplit hf
    have e' : modem_cmd_handler_setup_cmds_nolock tr psm_query_cmds Sem.ublox s = q := rfl
    clear_value q
    have hpos : ¬ (0 : Int) ≤ -(e : Int) := by have := hf.2.2; omega
    have : gsm_setup_psm tr s = (-(e : Int),
          { drv := q.2.drv, sent := q.2.sent ++ pre.map setup_cmd.send_cmd ++ [c.send_cmd] }) := by
      simp only [gsm_setup_psm, e']
      rw [if_neg (not_lt.mpr hq), if_pos h1, batch_fail tr _ pre c post e q.2
        (by simp [psm_set_cmds, SETUP_CMD_NOHANDLE]) hsplit hf]
      simp [hf.2.2]
    rw [this]
    exact ⟨rfl, fun hne h => hne (neg_injective h)⟩
  · intro q hq h1 hsplit hf
    have e' : modem_cmd_handler_setup_cmds_nolock tr urat_query_cmds Sem.ublox s = q := rfl
    clear_value q
    have : gsm_setup_urat cfg tr s = (-(e : Int),
          { drv := q.2.drv, sent := q.2.sent ++ pre.map setup_cmd.send_cmd ++ [c.send_cmd] }) := by
      simp only [gsm_setup_urat, e']
      rw [if_neg (not_lt.mpr hq), if_pos h1, batch_fail tr _ pre c post e q.2
        (by simp [urat_set_cmds, SETUP_CMD_NOHANDLE]) hsplit hf]
      simp [hf.2.2]
    rw [this]
    exact ⟨rfl, fun hne h => hne (neg_injective h)⟩
  · intro q hq h1 hsplit hf
    have e' : modem_cmd_handler_setup_cmds_nolock tr ubandmask_query_cmds Sem.ublox s = q := rfl
    clear_value q
    have : gsm_setup_ubandmask cfg tr s = (-(e : Int),
          { drv := q.2.drv, sent := q.2.sent ++ pre.map setup_cmd.send_cmd ++ [c.send_cmd] }) := by
      simp only [gsm_setup_ubandmask, e']
      rw [if_neg (not_lt.mpr hq), if_pos h1, batch_fail tr _ pre c post e q.2
        (by simp [ubandmask_set_cmds, SETUP_CMD_NOHANDLE]) hsplit hf]
      simp [hf.2.2]
    rw [this]
    exact ⟨rfl, fun hne h => hne (neg_injective h)⟩
  · exact mnoprof_apply cfg tr s

theorem modem_failing_ack (a b c d bad : String) (h : List String) (cmd : String)
    (hne : cmd ≠ bad) : (modem_failing a b c d bad h cmd).errno = 0 := by
  unfold modem_failing
  rw [if_neg hne]
  exact modem_replies_ack _ _ _ _ _ _

theorem fails_at_detach (hist : List String) :
    fails_at modem_failing_detach hist [SETUP_CMD_NOHANDLE "ATE0"]
      (SETUP_CMD_NOHANDLE "AT+CFUN=0") 5 := by
  refine ⟨?_, rfl, by decide⟩
  intro p x r h
  cases p with
  | nil =>
    simp only [List.nil_append, List.cons.injEq] at h
    rw [← h.1]
    exact modem_failing_ack _ _ _ _ _ _ _ (by decide)
  | cons y ys =>
    simp only [List.cons_append, List.cons.injEq] at h
    exact absurd h.2 (by simp)

/-- C5, witness: the modem reports RAT 8 where 7 is configured and fails AT+CFUN=0
with EIO; the RAT step returns -EIO and sends nothing after AT+CFUN=0. On the
same modem the Profile step, with profile 1 where 100 is configured, sends all
three apply commands and returns -EAGAIN. -/
theorem C5_apply_failure_witness :
    (gsm_setup_urat sample_config modem_failing_detach boot_state
        = (-5, { drv := { minfo := ⟨0, 0, ['8'], 0, 0, 0, 0, 0, 0⟩, ublox_sem := 0 },
                 sent := ["AT+URAT?", "ATE0", "AT+CFUN=0"] })
      ∧ (((5 : Nat) : Int) ≠ EAGAIN →
          (gsm_setup_urat sample_config modem_failing_detach boot_state).1 ≠ -EAGAIN))
    ∧ gsm_setup_mnoprof sample_config modem_failing_detach boot_state
      = (-EAGAIN, { drv := { minfo := ⟨1, 0, [], 0, 0, 0, 0, 0, 0⟩, ublox_sem := 0 },
                    sent := ["AT+UMNOPROF?", "AT+CFUN=0", "AT+UMNOPROF=100",
                             "AT+CFUN=15"] }) :=
  ⟨(C5_apply_failure sample_config modem_failing_detach boot_state
      [SETUP_CMD_NOHANDLE "ATE0"] (SETUP_CMD_NOHANDLE "AT+CFUN=0")
      [SETUP_CMD_NOHANDLE "AT+URAT=7", SETUP_CMD_NOHANDLE "AT+CFUN=15"] 5).2.1
      (by decide) (by decide) rfl (fails_at_detach _),
   (C5_apply_failure sample_config modem_failing_detach boot_state
      [] (SETUP_CMD_NOHANDLE "ATE0") [] 5).2.2.2 (by decide) (by decide) (by decide)⟩

/-- C5, counterexample: the modem reports profile 1 where 100 is configured and
fails the apply command AT+CFUN=0 with EIO; the Profile step sends the rest of
its commands all the same and returns -EAGAIN, not -EIO. -/
theorem C5_counterexample :
    (modem_failing_detach ["AT+UMNOPROF?"] "AT+CFUN=0").errno = 5
    ∧ gsm_setup_mnoprof sample_config modem_failing_detach boot_state
      = (-EAGAIN, { drv := { minfo := ⟨1, 0, [], 0, 0, 0, 0, 0, 0⟩, ublox_sem := 0 },
                    sent := ["AT+UMNOPROF?", "AT+CFUN=0", "AT+UMNOPROF=100", "AT+CFUN=15"] })
    ∧ -EAGAIN ≠ - EIO := by
  decide

/-! ## C7: the PSM parser -/

/-- C7 (evaluation of the code). On every response line that starts with
"+CPSMS: " the PSM parser reports success and stores psm = -16, the value of the
space after the colon minus '0', whatever digit follows the space; on
"+CPSMS: 1" it does not store 1, and the PSM step then reports Unchanged. -/
theorem C7_psm_parser_reads_the_space (rest : List Char) (d : Driver) :
    on_cmd_atcmdinfo_psm ("+CPSMS: ".data ++ rest) d
      = (0, { minfo := { d.minfo with mdm_psm := -16 }, ublox_sem := 1 })
    ∧ (on_cmd_atcmdinfo_psm "+CPSMS: 1".data boot_state.drv).2.minfo.mdm_psm = -16
    ∧ gsm_setup_psm
        (modem_replies "+UMNOPROF: 100" "+CPSMS: 1" "+URAT: 7" "+UBANDMASK: 0,524420,1,524288")
        boot_state
      = (0, { drv := { minfo := ⟨0, -16, [], 0, 0, 0, 0, 0, 0⟩, ublox_sem := 0 },
              sent := ["AT+CPSMS?"] }) := by
  refine ⟨?_, by decide, by decide⟩
  have e : "+CPSMS: ".data = ['+', 'C', 'P', 'S', 'M', 'S', ':', ' '] := rfl
  rw [e]
  simp [on_cmd_atcmdinfo_psm, net_buf_linearize, cstr, List.takeWhile, strchr, deref,
    k_sem_give]

/-! ## C8: the Profile parser on a well-formed response -/

theorem stops_nil : stops [] := by
  intro c hc
  simp at hc

theorem stops_comma (rest : List Char) : stops (',' :: rest) := by
  intro c hc
  simp only [List.head?_cons, Option.mem_def, Option.some.injEq] at hc
  rw [← hc]
  decide

/-- C8 (amended). For every integer n in the range of int whose response line
"+UMNOPROF: <n>" (n in decimal) has at most 15 characters, the Profile parser
stores profile = n, reports success and releases the completion signal. -/
theorem C8_profile_parser_stores_n (n : Int) (d : Driver)
    (h1 : -2 ^ 31 ≤ n) (h2 : n < 2 ^ 31)
    (hlen : ("+UMNOPROF: ".data ++ decimal n).length ≤ 15) :
    on_cmd_atcmdinfo_mnoprof ("+UMNOPROF: ".data ++ decimal n) d
      = (0, { minfo := { d.minfo with mdm_mnoprof := n }, ublox_sem := 1 }) := by
  have hnul : '\x00' ∉ "+UMNOPROF: ".data ++ decimal n := by
    intro h
    rcases List.mem_append.mp h with h | h
    · revert h; decide
    · exact (decimal_chars n _ h).2 rfl
  have ha := atoi_decimal n stops_nil h1 h2
  rw [List.append_nil] at ha
  have e : "+UMNOPROF: ".data
      = ['+', 'U', 'M', 'N', 'O', 'P', 'R', 'O', 'F', ':', ' '] := rfl
  have hb := net_buf_text hlen hnul
  rw [e] at hb
  simp only [on_cmd_atcmdinfo_mnoprof]
  rw [hb]
  simp [strchr, deref, k_sem_give, ha]

/-- C8, witness: the line "+UMNOPROF: 100". -/
theorem C8_profile_parser_stores_n_witness :
    on_cmd_atcmdinfo_mnoprof "+UMNOPROF: 100".data boot_state.drv
      = (0, { minfo := ⟨100, 0, [], 0, 0, 0, 0, 0, 0⟩, ublox_sem := 1 }) :=
  C8_profile_parser_stores_n 100 boot_state.drv (by decide) (by decide) (by decide)

/-- C8, counterexample: 12345 is in the range of int, and on the line
"+UMNOPROF: 12345" the Profile parser stores 1234: the line has 16 characters
and the parser reads the first 15. -/
theorem C8_counterexample :
    "+UMNOPROF: ".data ++ decimal 12345 = "+UMNOPROF: 12345".data
    ∧ (on_cmd_atcmdinfo_mnoprof ("+UMNOPROF: ".data ++ decimal 12345) boot_state.drv).1 = 0
    ∧ (on_cmd_atcmdinfo_mnoprof ("+UMNOPROF: ".data ++ decimal 12345)
        boot_state.drv).2.minfo.mdm_mnoprof = 1234 := by
  decide

/-! ## C9: when the Profile parser fails -/

theorem mnoprof_result (line : List Char) (d : Driver) :
    let buf := cstr (net_buf_linearize 15 line)
    (':' ∉ buf ∨ buf[buf.indexOf ':' + 1]? ≠ some ' ') →
      on_cmd_atcmdinfo_mnoprof line d
        = (-EINVAL, { d with minfo := { d.minfo with mdm_mnoprof := -1 } }) := by
  intro buf h
  have e : cstr (net_buf_linearize 15 line) = buf := rfl
  clear_value buf
  simp only [on_cmd_atcmdinfo_mnoprof, e, strchr_eq]
  by_cases hc : ':' ∈ buf
  · rw [if_pos hc]
    have h2 : buf[buf.indexOf ':' + 1]? ≠ some ' ' := h.resolve_left (fun k => k hc)
    simp only [deref_drop]
    rw [if_pos]
    intro hd
    apply h2
    rw [List.getD_eq_getElem?_getD] at hd
    cases hx : buf[buf.indexOf ':' + 1]? with
    | none => rw [hx] at hd; simp at hd
    | some y => rw [hx] at hd; simp at hd; rw [hd]
  · rw [if_neg hc]

theorem mnoprof_accepts (line : List Char) (d : Driver) :
    let buf := cstr (net_buf_linearize 15 line)
    ¬ (':' ∉ buf ∨ buf[buf.indexOf ':' + 1]? ≠ some ' ') →
      on_cmd_atcmdinfo_mnoprof line d
        = (0, k_sem_give { d with minfo := { d.minfo with
            mdm_mnoprof := atoi (buf.drop (buf.indexOf ':' + 2)) } }) := by
  intro buf h
  have e : cstr (net_buf_linearize 15 line) = buf := rfl
  clear_value buf
  push_neg at h
  simp only [on_cmd_atcmdinfo_mnoprof, e, strchr_eq]
  rw [if_pos h.1]
  simp only [deref_drop]
  rw [if_neg]
  · simp [List.drop_drop, Nat.add_comm]
  · rw [List.getD_eq_getElem?_getD, h.2]
    simp

/-- C9. For every response line of at most 15 characters (a text line: no NUL
in it), the Profile parser fails with -EINVAL if and only if the line contains
no ':' or the character right after its first ':' is not a space; its result is
0 otherwise; and whenever it fails, profile is the sentinel -1 and the
completion signal is as it was. -/
theorem C9_profile_parser_failure (resp : List Char) (d : Driver)
    (hlen : resp.length ≤ 15) (hnul : '\x00' ∉ resp) :
    ((on_cmd_atcmdinfo_mnoprof resp d).1 = -EINVAL
        ↔ (':' ∉ resp ∨ resp[resp.indexOf ':' + 1]? ≠ some ' '))
    ∧ ((on_cmd_atcmdinfo_mnoprof resp d).1 = -EINVAL ∨ (on_cmd_atcmdinfo_mnoprof resp d).1 = 0)
    ∧ ((on_cmd_atcmdinfo_mnoprof resp d).1 ≠ 0 →
        (on_cmd_atcmdinfo_mnoprof resp d).2.minfo.mdm_mnoprof = -1
        ∧ (on_cmd_atcmdinfo_mnoprof resp d).2.ublox_sem = d.ublox_sem) := by
  have hr := mnoprof_result resp d
  have ha := mnoprof_accepts resp d
  simp only [net_buf_text hlen hnul] at hr ha
  by_cases h : ':' ∉ resp ∨ resp[resp.indexOf ':' + 1]? ≠ some ' '
  · rw [hr h]
    exact ⟨⟨fun _ => h, fun _ => rfl⟩, Or.inl rfl, fun _ => ⟨rfl, rfl⟩⟩
  · rw [ha h]
    have hne : (0 : Int) ≠ -EINVAL := by decide
    exact ⟨⟨fun k => absurd k hne, fun k => absurd k h⟩, Or.inr rfl, fun k => absurd rfl k⟩

/-- C9, witness: the line "+UMNOPROF:7" has a ':' that is followed by '7'. -/
theorem C9_profile_parser_failure_witness :
    ((on_cmd_atcmdinfo_mnoprof "+UMNOPROF:7".data boot_state.drv).1 = -EINVAL
        ↔ (':' ∉ "+UMNOPROF:7".data
            ∨ "+UMNOPROF:7".data["+UMNOPROF:7".data.indexOf ':' + 1]? ≠ some ' '))
    ∧ ((on_cmd_atcmdinfo_mnoprof "+UMNOPROF:7".data boot_state.drv).1 = -EINVAL
        ∨ (on_cmd_atcmdinfo_mnoprof "+UMNOPROF:7".data boot_state.drv).1 = 0)
    ∧ ((on_cmd_atcmdinfo_mnoprof "+UMNOPROF:7".data boot_state.drv).1 ≠ 0 →
        (on_cmd_atcmdinfo_mnoprof "+UMNOPROF:7".data boot_state.drv).2.minfo.mdm_mnoprof = -1
        ∧ (on_cmd_atcmdinfo_mnoprof "+UMNOPROF:7".data boot_state.drv).2.ublox_sem
            = boot_state.drv.ublox_sem) :=
  C9_profile_parser_failure "+UMNOPROF:7".data boot_state.drv (by decide) (by decide)

/-! ## C6: which responses the parsers reject -/

theorem psm_result (line : List Char) (d : Driver)
    (h : ':' ∉ cstr (net_buf_linearize 15 line)) :
    on_cmd_atcmdinfo_psm line d = (-EINVAL, d) := by
  simp only [on_cmd_atcmdinfo_psm, strchr_eq]
  rw [if_neg h]

theorem dispatch_rejected (h : Handler) : ∀ (lines : List (List Char)) (d : Driver),
    (∀ l ∈ lines, ∀ d', (h l d').2.ublox_sem = d'.ublox_sem) → d.ublox_sem = 0 →
      (dispatch h true lines d).ublox_sem = 0 := by
  intro lines
  induction lines with
  | nil => intro d _ hd; exact hd
  | cons l ls ih =>
    intro d hr hd
    have h1 : (h l d).2.ublox_sem = 0 := by rw [hr l (List.mem_cons_self _ _), hd]
    simp only [dispatch, h1]
    rw [if_neg (by simp)]
    exact ih _ (fun x hx => hr x (List.mem_cons_of_mem _ hx)) h1

theorem query_timeout (tr : Transport) (c : String) (h : Handler) (s : State)
    (hr : ∀ l ∈ (tr s.sent c).lines, ∀ d', (h l d').2.ublox_sem = d'.ublox_sem) :
    (modem_cmd_handler_setup_cmds_nolock tr [SETUP_CMD c h] Sem.ublox s).1 = -ETIMEDOUT := by
  rw [setup_cmds_single]
  simp only [SETUP_CMD, modem_cmd_send_nolock]
  rw [if_neg]
  rw [dispatch_rejected h _ _ hr rfl]
  simp

/-- C6 (amended). The Profile parser rejects a response in which it finds no ':'
or whose first ':' is not followed by a space, and the PSM parser one in which
it finds no ':' (both look at the first 15 characters): when every response to
the query is such a line, the completion signal is withheld and the step ends
in the failure -ETIMEDOUT, not in Unchanged, with no command sent after the
query. The RAT and BandMask parsers reject no line: they report success and
release the signal for every response. -/
theorem C6_rejected_responses (cfg : Config) (tr : Transport) (s : State) :
    ((∀ l ∈ (tr s.sent "AT+UMNOPROF?").lines,
        ':' ∉ cstr (net_buf_linearize 15 l)
        ∨ (cstr (net_buf_linearize 15 l))[(cstr (net_buf_linearize 15 l)).indexOf ':' + 1]?
            ≠ some ' ') →
      gsm_setup_mnoprof cfg tr s
          = (modem_cmd_handler_setup_cmds_nolock tr mnoprof_query_cmds Sem.ublox s)
        ∧ (gsm_setup_mnoprof cfg tr s).1 = -ETIMEDOUT
        ∧ (gsm_setup_mnoprof cfg tr s).2.sent = s.sent ++ ["AT+UMNOPROF?"])
    ∧ ((∀ l ∈ (tr s.sent "AT+CPSMS?").lines, ':' ∉ cstr (net_buf_linearize 15 l)) →
      gsm_setup_psm tr s
          = (modem_cmd_handler_setup_cmds_nolock tr psm_query_cmds Sem.ublox s)
        ∧ (gsm_setup_psm tr s).1 = -ETIMEDOUT
        ∧ (gsm_setup_psm tr s).2.sent = s.sent ++ ["AT+CPSMS?"])
    ∧ (∀ (l : List Char) (d : Driver), (on_cmd_atcmdinfo_urat l d).1 = 0
        ∧ (on_cmd_atcmdinfo_urat l d).2.ublox_sem = 1)
    ∧ (∀ (l : List Char) (d : Driver), (on_cmd_atcmdinfo_ubandmask l d).1 = 0
        ∧ (on_cmd_atcmdinfo_ubandmask l d).2.ublox_sem = 1) := by
  refine ⟨?_, ?_, ?_, ?_⟩
  · intro h
    have ht := query_timeout tr "AT+UMNOPROF?" on_cmd_atcmdinfo_mnoprof s
      (fun l hl d' => by rw [mnoprof_result l d' (h l hl)])
    have hs := query_sent tr "AT+UMNOPROF?" on_cmd_atcmdinfo_mnoprof s
    have e : gsm_setup_mnoprof cfg tr s
        = modem_cmd_handler_setup_cmds_nolock tr mnoprof_query_cmds Sem.ublox s := by
      simp only [gsm_setup_mnoprof]
      rw [if_pos]
      simp only [mnoprof_query_cmds, ht]
      decide
    rw [e]
    exact ⟨rfl, ht, hs⟩
  · intro h
    have ht := query_timeout tr "AT+CPSMS?" on_cmd_atcmdinfo_psm s
      (fun l hl d' => by rw [psm_result l d' (h l hl)])
    have hs := query_sent tr "AT+CPSMS?" on_cmd_atcmdinfo_psm s
    have e : gsm_setup_psm tr s
        = modem_cmd_handler_setup_cmds_nolock tr psm_query_cmds Sem.ublox s := by
      simp only [gsm_setup_psm]
      rw [if_pos]
      simp only [psm_query_cmds, ht]
      decide
    rw [e]
    exact ⟨rfl, ht, hs⟩
  · intro l d
    simp [on_cmd_atcmdinfo_urat, k_sem_give]
  · intro l d
    simp [on_cmd_atcmdinfo_ubandmask, k_sem_give]

/-- C6, witness: the Profile query and the PSM query are answered with
"garbage"; both steps time out. -/
theorem C6_rejected_responses_witness :
    gsm_setup_mnoprof sample_config
        (modem_replies "garbage" "garbage" "+URAT: 7" "+UBANDMASK: 0,524420,1,524288")
        boot_state
      = (-116, { drv := { minfo := ⟨-1, 0, [], 0, 0, 0, 0, 0, 0⟩, ublox_sem := 0 },
                 sent := ["AT+UMNOPROF?"] })
    ∧ gsm_setup_psm
        (modem_replies "garbage" "garbage" "+URAT: 7" "+UBANDMASK: 0,524420,1,524288")
        boot_state
      = (-116, { drv := { minfo := ⟨0, 0, [], 0, 0, 0, 0, 0, 0⟩, ublox_sem := 0 },
                 sent := ["AT+CPSMS?"] }) :=
  ⟨(((C6_rejected_responses sample_config
      (modem_replies "garbage" "garbage" "+URAT: 7" "+UBANDMASK: 0,524420,1,524288")
      boot_state).1 (by decide)).1 : _ = _),
   (((C6_rejected_responses sample_config
      (modem_replies "garbage" "garbage" "+URAT: 7" "+UBANDMASK: 0,524420,1,524288")
      boot_state).2.1 (by decide)).1 : _ = _)⟩

/-- C6, counterexample: the RAT query is answered with "?? 7", which is not of
the form "+URAT: ..."; the RAT parser accepts it, stores "7", and the RAT step
returns Unchanged (0) since "7" is the target. -/
theorem C6_counterexample :
    ¬ ("+URAT: ".data <+: "?? 7".data)
    ∧ (on_cmd_atcmdinfo_urat "?? 7".data boot_state.drv).1 = 0
    ∧ (modem_replies "+UMNOPROF: 100" "+CPSMS: 0" "?? 7" "+UBANDMASK: 0,524420,1,524288"
        [] "AT+URAT?").lines = ["?? 7".data]
    ∧ gsm_setup_urat sample_config
        (modem_replies "+UMNOPROF: 100" "+CPSMS: 0" "?? 7" "+UBANDMASK: 0,524420,1,524288")
        boot_state
      = (0, { drv := { minfo := ⟨0, 0, ['7'], 0, 0, 0, 0, 0, 0⟩, ublox_sem := 0 },
              sent := ["AT+URAT?"] }) := by
  decide

/-! ## C10: the BandMask parser on a well-formed response -/

theorem strchr_append (x : Char) (rest : List Char) : ∀ (ds : List Char), x ∉ ds →
    strchr (ds ++ x :: rest) x = some (x :: rest) := by
  intro ds
  induction ds with
  | nil => intro _; simp [strchr]
  | cons c cs ih =>
    intro h
    have hc : c ≠ x := fun e => h (e ▸ List.mem_cons_self _ _)
    have hcs : x ∉ cs := fun e => h (List.mem_cons_of_mem _ e)
    rw [List.cons_append, strchr, if_neg hc, ih hcs]

theorem next_field_append {ds : List Char} (rest : List Char) (h : ',' ∉ ds) :
    next_field (ds ++ ',' :: rest) = some rest := by
  simp [next_field, strchr_append ',' rest ds h]

theorem next_field_none {ds : List Char} (h : ',' ∉ ds) : next_field ds = none := by
  simp [next_field, strchr_eq, h]

theorem decimal_no_comma (n : Int) : ',' ∉ decimal n :=
  fun h => (decimal_chars n _ h).1 rfl

theorem to_uint64_nat (m : Nat) (h : m < 2 ^ 64) : to_uint64 (m : Int) = m := by
  unfold to_uint64
  rw [Int.emod_eq_of_lt (by omega) (by omega)]
  simp

theorem ubandmask_two_pairs (m0 m1 : Nat) (h0 : m0 < 2 ^ 31) (h1 : m1 < 2 ^ 31)
    (k : Nat) (m : modem_info) :
    ubandmask_loop (k + 4)
        (' ' :: '0' :: ',' :: (decimal m0 ++ ',' :: '1' :: ',' :: decimal m1)) 0 (-1) m
      = { m with mdm_bandmask0 := m0, mdm_bandmask1 := m1 } := by
  have a0 : atoi (' ' :: '0' :: ',' :: (decimal m0 ++ ',' :: '1' :: ',' :: decimal m1)) = 0 := by
    simp [atoi, List.dropWhile, isspace, atoi_digits, isdigit, to_int]
  have n0 : next_field (' ' :: '0' :: ',' :: (decimal m0 ++ ',' :: '1' :: ',' :: decimal m1))
      = some (decimal m0 ++ ',' :: '1' :: ',' :: decimal m1) := by
    simp [next_field, strchr]
  have a1 : atoi (decimal m0 ++ ',' :: '1' :: ',' :: decimal m1) = m0 :=
    atoi_decimal m0 (stops_comma _) (by omega) (by omega)
  have n1 : next_field (decimal m0 ++ ',' :: '1' :: ',' :: decimal m1)
      = some ('1' :: ',' :: decimal m1) := next_field_append _ (decimal_no_comma _)
  have a2 : atoi ('1' :: ',' :: decimal m1) = 1 := by
    simp [atoi, List.dropWhile, isspace, atoi_digits, isdigit, to_int]
  have n2 : next_field ('1' :: ',' :: decimal m1) = some (decimal m1) := by
    simp [next_field, strchr]
  have a3 : atoi (decimal m1) = m1 := by
    have := atoi_decimal m1 stops_nil (by omega) (by omega)
    rwa [List.append_nil] at this
  have n3 : next_field (decimal m1) = none := next_field_none (decimal_no_comma _)
  simp only [ubandmask_loop, a0, n0, a1, n1, a2, n2, a3, n3]
  simp [set_bandmask, MDM_UBANDMASKS, to_uint64_nat m0 (by omega), to_uint64_nat m1 (by omega)]

theorem ubandmask_line_text (m0 m1 : Nat) (h0 : m0 < 2 ^ 31) (h1 : m1 < 2 ^ 31) :
    cstr (net_buf_linearize 39 (ubandmask_response m0 m1)) = ubandmask_response m0 m1 := by
  unfold ubandmask_response
  apply net_buf_text
  · have l0 := decimal_length_nat m0 h0
    have l1 := decimal_length_nat m1 h1
    have e1 : "+UBANDMASK: 0,".data.length = 14 := rfl
    have e2 : ",1,".data.length = 3 := rfl
    simp only [List.length_append, e1, e2]
    omega
  · intro h
    simp only [List.mem_append] at h
    rcases h with ((h | h) | h) | h
    · revert h; decide
    · exact (decimal_chars _ _ h).2 rfl
    · revert h; decide
    · exact (decimal_chars _ _ h).2 rfl

theorem ubandmask_parser_two_pairs (m0 m1 : Nat) (h0 : m0 < 2 ^ 31) (h1 : m1 < 2 ^ 31)
    (d : Driver) :
    on_cmd_atcmdinfo_ubandmask (ubandmask_response m0 m1) d
      = (0, { minfo := { d.minfo with mdm_bandmask0 := m0, mdm_bandmask1 := m1 },
              ublox_sem := 1 }) := by
  have e : ubandmask_response m0 m1
      = ['+', 'U', 'B', 'A', 'N', 'D', 'M', 'A', 'S', 'K', ':']
        ++ (' ' :: '0' :: ',' :: (decimal m0 ++ ',' :: '1' :: ',' :: decimal m1)) := by
    simp [ubandmask_response]
  have hs : strchr (ubandmask_response m0 m1) ' '
      = some (' ' :: '0' :: ',' :: (decimal m0 ++ ',' :: '1' :: ',' :: decimal m1)) := by
    rw [e]
    simp [strchr]
  obtain ⟨k, hk⟩ : ∃ k, (ubandmask_response m0 m1).length + 1 = k + 4 :=
    ⟨(ubandmask_response m0 m1).length - 3, by rw [e]; simp⟩
  simp only [on_cmd_atcmdinfo_ubandmask, ubandmask_line_text m0 m1 h0 h1, hs, hk,
    ubandmask_two_pairs m0 m1 h0 h1, k_sem_give]
  simp

/-- Masks that an int holds are read as sent: for m0, m1 below 2 ^ 31 the
BandMask parser on the line "+UBANDMASK: 0,<m0>,1,<m1>" leaves band_mask[0] = m0
and band_mask[1] = m1, and the BandMask step answered by this line reports
Unchanged when m0 and m1 are the configured targets. -/
theorem ubandmask_step_int_masks (m0 m1 : Nat) (h0 : m0 < 2 ^ 31) (h1 : m1 < 2 ^ 31) :
    (∀ d : Driver, on_cmd_atcmdinfo_ubandmask (ubandmask_response m0 m1) d
      = (0, { minfo := { d.minfo with mdm_bandmask0 := m0, mdm_bandmask1 := m1 },
              ublox_sem := 1 }))
    ∧ (∀ (cfg : Config) (tr : Transport) (s : State),
        (tr s.sent "AT+UBANDMASK?").lines = [ubandmask_response m0 m1] →
        (tr s.sent "AT+UBANDMASK?").errno = 0 →
        cfg.UBANDMASK_M1 = m0 → cfg.UBANDMASK_NB1 = m1 →
        gsm_setup_ubandmask cfg tr s
          = (0, { drv := { minfo := { s.drv.minfo with mdm_bandmask0 := m0,
                                                       mdm_bandmask1 := m1 },
                           ublox_sem := 0 },
                  sent := s.sent ++ ["AT+UBANDMASK?"] })) := by
  refine ⟨ubandmask_parser_two_pairs m0 m1 h0 h1, ?_⟩
  intro cfg tr s hl he hc0 hc1
  have hq : modem_cmd_handler_setup_cmds_nolock tr ubandmask_query_cmds Sem.ublox s
      = (0, { drv := { minfo := { s.drv.minfo with mdm_bandmask0 := m0,
                                                   mdm_bandmask1 := m1 },
                       ublox_sem := 0 },
              sent := s.sent ++ ["AT+UBANDMASK?"] }) := by
    rw [ubandmask_query_cmds, setup_cmds_single]
    simp [SETUP_CMD, modem_cmd_send_nolock, hl, he, dispatch,
      ubandmask_parser_two_pairs m0 m1 h0 h1]
  simp only [gsm_setup_ubandmask, hq]
  simp [hc0, hc1]

/-- The masks 524420 and 524288 are read as sent. -/
theorem ubandmask_step_int_masks_example :
    on_cmd_atcmdinfo_ubandmask "+UBANDMASK: 0,524420,1,524288".data boot_state.drv
      = (0, { minfo := ⟨0, 0, [], 524420, 524288, 0, 0, 0, 0⟩, ublox_sem := 1 }) :=
  (ubandmask_step_int_masks 524420 524288 (by decide) (by decide)).1 boot_state.drv

theorem to_int_range (x : Int) : -2 ^ 31 ≤ to_int x ∧ to_int x < 2 ^ 31 := by
  unfold to_int
  have h1 := Int.emod_nonneg (x + 2 ^ 31) (by decide : (2 : Int) ^ 32 ≠ 0)
  have h2 := Int.emod_lt_of_pos (x + 2 ^ 31) (by decide : (0 : Int) < 2 ^ 32)
  constructor <;> omega

theorem atoi_range (p : List Char) : -2 ^ 31 ≤ atoi p ∧ atoi p < 2 ^ 31 := by
  unfold atoi
  simp only []
  split_ifs <;> exact to_int_range _

theorem to_uint64_of_int (v : Int) (h : -2 ^ 31 ≤ v ∧ v < 2 ^ 31) :
    int_image (to_uint64 v) := by
  unfold int_image to_uint64
  by_cases hv : 0 ≤ v
  · left
    rw [Int.emod_eq_of_lt hv (by omega)]
    omega
  · right
    have e : v % 2 ^ 64 = v + 2 ^ 64 := by
      rw [← Int.add_mul_emod_self_left v (2 ^ 64) 1, mul_one]
      exact Int.emod_eq_of_lt (by omega) (by omega)
    rw [e]
    omega

theorem ubandmask_loop_int_image : ∀ (fuel : Nat) (p : List Char) (i : Nat) (rat : Int)
    (m : modem_info),
    ((ubandmask_loop fuel p i rat m).mdm_bandmask0 = m.mdm_bandmask0
      ∨ int_image (ubandmask_loop fuel p i rat m).mdm_bandmask0)
    ∧ ((ubandmask_loop fuel p i rat m).mdm_bandmask1 = m.mdm_bandmask1
      ∨ int_image (ubandmask_loop fuel p i rat m).mdm_bandmask1) := by
  intro fuel
  induction fuel with
  | zero => intro p i rat m; exact ⟨Or.inl rfl, Or.inl rfl⟩
  | succ fuel ih =>
    intro p i rat m
    have hv := to_uint64_of_int (atoi p) (atoi_range p)
    have hm : ∀ m' : modem_info,
        m' = (if i % 2 = 0 then m
          else if 0 ≤ rat ∧ rat < MDM_UBANDMASKS then set_bandmask m rat (atoi p) else m) →
        (m'.mdm_bandmask0 = m.mdm_bandmask0 ∨ int_image m'.mdm_bandmask0)
        ∧ (m'.mdm_bandmask1 = m.mdm_bandmask1 ∨ int_image m'.mdm_bandmask1) := by
      intro m' e
      rw [e]
      split_ifs
      · exact ⟨Or.inl rfl, Or.inl rfl⟩
      · unfold set_bandmask
        split_ifs
        · exact ⟨Or.inr hv, Or.inl rfl⟩
        · exact ⟨Or.inl rfl, Or.inr hv⟩
      · exact ⟨Or.inl rfl, Or.inl rfl⟩
    simp only [ubandmask_loop]
    split
    · exact hm _ rfl
    · rename_i q hq
      obtain ⟨h0, h1⟩ := hm _ rfl
      obtain ⟨k0, k1⟩ := ih q (i + 1) (if i % 2 = 0 then atoi p else rat)
        (if i % 2 = 0 then m
          else if 0 ≤ rat ∧ rat < MDM_UBANDMASKS then set_bandmask m rat (atoi p) else m)
      constructor
      · rcases k0 with k0 | k0
        · rw [k0]; exact h0
        · exact Or.inr k0
      · rcases k1 with k1 | k1
        · rw [k1]; exact h1
        · exact Or.inr k1

/-- C10 (evaluation of the code). The mask 4294967296 (bit 32) fits the 64-bit
unsigned band_mask entry, and on the response line
"+UBANDMASK: 0,4294967296,1,0" (28 characters) the BandMask parser reports
success and leaves band_mask[0] = 0, not 4294967296; with the targets 4294967296
and 0 configured, the BandMask step answered by this line does not report
Unchanged but applies its batch and returns -EAGAIN. On every response line and
from every prior state, a band mask after the parser is its prior value or the
conversion of an int (below 2 ^ 31, or from 2 ^ 64 - 2 ^ 31 on): the mask is
read by atoi into an int before it is stored. -/
theorem C10_mask_read_through_int (l : List Char) (d : Driver) :
    ((4294967296 : Nat) < 2 ^ 64
      ∧ ubandmask_response 4294967296 0 = "+UBANDMASK: 0,4294967296,1,0".data
      ∧ on_cmd_atcmdinfo_ubandmask (ubandmask_response 4294967296 0) boot_state.drv
        = (0, { minfo := ⟨0, 0, [], 0, 0, 0, 0, 0, 0⟩, ublox_sem := 1 })
      ∧ (on_cmd_atcmdinfo_ubandmask (ubandmask_response 4294967296 0)
          boot_state.drv).2.minfo.mdm_bandmask0 ≠ 4294967296
      ∧ gsm_setup_ubandmask
          { sample_config with UBANDMASK_M1 := 4294967296, UBANDMASK_NB1 := 0 }
          (modem_replies "+UMNOPROF: 100" "+CPSMS: 0" "+URAT: 7" "+UBANDMASK: 0,4294967296,1,0")
          boot_state
        = (-EAGAIN, { drv := { minfo := ⟨0, 0, [], 0, 0, 0, 0, 0, 0⟩, ublox_sem := 0 },
                      sent := ["AT+UBANDMASK?", "ATE0", "AT+CFUN=0",
                               "AT+UBANDMASK=0,4294967296", "AT+UBANDMASK=1,0",
                               "AT+CFUN=15"] }))
    ∧ ((on_cmd_atcmdinfo_ubandmask l d).2.minfo.mdm_bandmask0 = d.minfo.mdm_bandmask0
        ∨ int_image (on_cmd_atcmdinfo_ubandmask l d).2.minfo.mdm_bandmask0)
    ∧ ((on_cmd_atcmdinfo_ubandmask l d).2.minfo.mdm_bandmask1 = d.minfo.mdm_bandmask1
        ∨ int_image (on_cmd_atcmdinfo_ubandmask l d).2.minfo.mdm_bandmask1) := by
  refine ⟨by decide, ?_⟩
  exact ubandmask_loop_int_image _ _ 0 (-1) d.minfo

/-! ## Comma-separated fields -/

theorem fields_text_cons (f g : Int) (fs : List Int) :
    fields_text (f :: g :: fs) = decimal f ++ ',' :: fields_text (g :: fs) := rfl

theorem fields_text_single (f : Int) : fields_text [f] = decimal f := rfl

theorem atoi_fields (f : Int) (fs : List Int) (h1 : -2 ^ 31 ≤ f) (h2 : f < 2 ^ 31) :
    atoi (fields_text (f :: fs)) = f := by
  cases fs with
  | nil =>
    have := atoi_decimal f stops_nil h1 h2
    rwa [List.append_nil] at this
  | cons g gs =>
    rw [fields_text_cons]
    exact atoi_decimal f (stops_comma _) h1 h2

theorem next_field_fields (f g : Int) (fs : List Int) :
    next_field (fields_text (f :: g :: fs)) = some (fields_text (g :: fs)) := by
  rw [fields_text_cons]
  exact next_field_append _ (decimal_no_comma f)

theorem next_field_fields_single (f : Int) : next_field (fields_text [f]) = none :=
  next_field_none (decimal_no_comma f)

theorem fields_text_length : ∀ (fs : List Int), fs.length ≤ (fields_text fs).length + 1 := by
  intro fs
  induction fs with
  | nil => simp
  | cons f fs ih =>
    cases fs with
    | nil => simp
    | cons g gs =>
      rw [fields_text_cons]
      simp only [List.length_cons, List.length_append] at ih ⊢
      omega

theorem fields_text_nonul : ∀ (fs : List Int), '\x00' ∉ fields_text fs := by
  intro fs
  induction fs with
  | nil => simp [fields_text, comma_join]
  | cons f fs ih =>
    cases fs with
    | nil => exact fun h => (decimal_chars f _ h).2 rfl
    | cons g gs =>
      rw [fields_text_cons]
      intro h
      rcases List.mem_append.mp h with h | h
      · exact (decimal_chars f _ h).2 rfl
      · rcases List.mem_cons.mp h with h | h
        · exact absurd h (by decide)
        · exact ih h

/-! ## C11: pairs with a RAT index out of range -/

theorem atoi_space (x : List Char) : atoi (' ' :: x) = atoi x := by
  unfold atoi
  rw [List.dropWhile_cons_of_pos (by decide)]

theorem next_field_space (x : List Char) : next_field (' ' :: x) = next_field x := by
  unfold next_field
  rw [strchr, if_neg (by decide)]

theorem ubandmask_loop_space : ∀ (fuel : Nat) (x : List Char) (i : Nat) (rat : Int)
    (m : modem_info),
    ubandmask_loop fuel (' ' :: x) i rat m = ubandmask_loop fuel x i rat m := by
  intro fuel x i rat m
  cases fuel with
  | zero => rfl
  | succ k => simp only [ubandmask_loop, atoi_space, next_field_space]

theorem ubandmask_loop_last (fuel : Nat) (p : List Char) (i : Nat) (rat : Int)
    (m : modem_info) (hp : ',' ∉ p) (hrat : i % 2 = 0 ∨ ¬ (0 ≤ rat ∧ rat < MDM_UBANDMASKS)) :
    ubandmask_loop fuel p i rat m = m := by
  cases fuel with
  | zero => rfl
  | succ k =>
    simp only [ubandmask_loop, next_field_none hp]
    rcases hrat with h | h
    · rw [if_pos h]
    · split_ifs <;> rfl

theorem take_token (n : Nat) (t rest : List Char) :
    (List.take n (t ++ ',' :: rest) = List.take n t)
    ∨ (∃ k, List.take n (t ++ ',' :: rest) = t ++ ',' :: List.take k rest) := by
  by_cases h : n ≤ t.length
  · left
    rw [List.take_append_of_le_length h]
  · right
    refine ⟨n - t.length - 1, ?_⟩
    rw [List.take_append_eq_append_take, List.take_of_length_le (by omega)]
    obtain ⟨j, hj⟩ : ∃ j, n - t.length = j + 1 := ⟨n - t.length - 1, by omega⟩
    rw [hj, List.take_succ_cons]
    simp

theorem not_mem_take {x : Char} {t : List Char} (n : Nat) (h : x ∉ t) : x ∉ List.take n t :=
  fun k => h (List.mem_of_mem_take k)

theorem ubandmask_loop_skips : ∀ (ps : List (Int × Int)),
    (∀ p ∈ ps, -2 ^ 31 ≤ p.1 ∧ p.1 < 2 ^ 31 ∧ p.1 ≠ 0 ∧ p.1 ≠ 1) →
    ∀ (n fuel i : Nat) (rat : Int) (m : modem_info), i % 2 = 0 →
      ubandmask_loop fuel (List.take n (fields_text (pair_fields ps))) i rat m = m := by
  intro ps
  induction ps with
  | nil =>
    intro _ n fuel i rat m hi
    exact ubandmask_loop_last _ _ _ _ _ (by simp [pair_fields, fields_text, comma_join])
      (Or.inl hi)
  | cons p ps ih =>
    intro hr n fuel i rat m hi
    obtain ⟨h1, h2, h3, h4⟩ := hr p (List.mem_cons_self _ _)
    have hout : ¬ (0 ≤ p.1 ∧ p.1 < MDM_UBANDMASKS) := by
      unfold MDM_UBANDMASKS
      omega
    have ih' := ih (fun q hq => hr q (List.mem_cons_of_mem _ hq))
    have e1 : fields_text (pair_fields (p :: ps))
        = decimal p.1 ++ ',' :: fields_text (p.2 :: pair_fields ps) := rfl
    rw [e1]
    rcases take_token n (decimal p.1) (fields_text (p.2 :: pair_fields ps)) with e | ⟨k, e⟩
    · rw [e]
      exact ubandmask_loop_last _ _ _ _ _ (not_mem_take _ (decimal_no_comma _)) (Or.inl hi)
    · rw [e]
      cases fuel with
      | zero => rfl
      | succ fuel =>
        have a1 : atoi (decimal p.1 ++ ',' :: List.take k (fields_text (p.2 :: pair_fields ps)))
            = p.1 := atoi_decimal p.1 (stops_comma _) h1 h2
        simp only [ubandmask_loop, a1, next_field_append _ (decimal_no_comma p.1)]
        rw [if_pos hi, if_pos hi]
        have hi' : ¬ (i + 1) % 2 = 0 := by omega
        cases ps with
        | nil =>
          exact ubandmask_loop_last _ _ _ _ _ (not_mem_take _ (decimal_no_comma _))
            (Or.inr hout)
        | cons q qs =>
          have e2 : fields_text (p.2 :: pair_fields (q :: qs))
              = decimal p.2 ++ ',' :: fields_text (pair_fields (q :: qs)) := rfl
          rw [e2]
          rcases take_token k (decimal p.2) (fields_text (pair_fields (q :: qs)))
            with e' | ⟨k', e'⟩
          · rw [e']
            exact ubandmask_loop_last _ _ _ _ _ (not_mem_take _ (decimal_no_comma _))
              (Or.inr hout)
          · rw [e']
            cases fuel with
            | zero => rfl
            | succ fuel =>
              simp only [ubandmask_loop, next_field_append _ (decimal_no_comma p.2)]
              rw [if_neg hi', if_neg hi', if_neg hout]
              exact ih' k' fuel (i + 1 + 1) p.1 m (by omega)

theorem ubandmask_loop_pairs : ∀ (ps : List (Int × Int)),
    (∀ p ∈ ps, (-2 ^ 31 ≤ p.1 ∧ p.1 < 2 ^ 31) ∧ (-2 ^ 31 ≤ p.2 ∧ p.2 < 2 ^ 31)) →
    ∀ (fuel i : Nat) (rat : Int) (m : modem_info), i % 2 = 0 → 2 * ps.length ≤ fuel →
      ubandmask_loop fuel (fields_text (pair_fields ps)) i rat m = apply_pairs ps m := by
  intro ps
  induction ps with
  | nil =>
    intro _ fuel i rat m hi _
    exact ubandmask_loop_last _ _ _ _ _ (by simp [pair_fields, fields_text, comma_join])
      (Or.inl hi)
  | cons p ps ih =>
    intro hr fuel i rat m hi hf
    obtain ⟨⟨h1, h2⟩, h3, h4⟩ := hr p (List.mem_cons_self _ _)
    have ih' := ih (fun q hq => hr q (List.mem_cons_of_mem _ hq))
    obtain ⟨k, rfl⟩ : ∃ k, fuel = k + 2 :=
      ⟨fuel - 2, by simp only [List.length_cons] at hf; omega⟩
    have hi' : ¬ (i + 1) % 2 = 0 := by omega
    have hin : (0 ≤ p.1 ∧ p.1 < MDM_UBANDMASKS) ↔ (p.1 = 0 ∨ p.1 = 1) := by
      unfold MDM_UBANDMASKS
      omega
    have e1 : pair_fields (p :: ps) = p.1 :: p.2 :: pair_fields ps := rfl
    rw [e1]
    have a2 := atoi_fields p.2 (pair_fields ps) h3 h4
    simp only [ubandmask_loop, atoi_fields p.1 _ h1 h2, next_field_fields, a2]
    rw [if_pos hi, if_pos hi, if_neg hi', if_neg hi']
    cases ps with
    | nil =>
      have : next_field (fields_text (p.2 :: pair_fields [])) = none :=
        next_field_fields_single p.2
      simp only [this, apply_pairs, hin]
    | cons q qs =>
      have e2 : pair_fields (q :: qs) = q.1 :: q.2 :: pair_fields qs := rfl
      have : next_field (fields_text (p.2 :: pair_fields (q :: qs)))
          = some (fields_text (pair_fields (q :: qs))) := by
        rw [e2]
        exact next_field_fields _ _ _
      simp only [this]
      rw [ih' k (i + 1 + 1) p.1 _ (by omega)
        (by simp only [List.length_cons] at hf ⊢; omega)]
      simp only [apply_pairs, hin]

theorem pairs_response_buffer (ps : List (Int × Int)) :
    cstr (net_buf_linearize 39 (ubandmask_pairs_response ps))
      = ['+', 'U', 'B', 'A', 'N', 'D', 'M', 'A', 'S', 'K', ':']
        ++ (' ' :: List.take 27 (fields_text (pair_fields ps))) := by
  have e : ubandmask_pairs_response ps
      = ['+', 'U', 'B', 'A', 'N', 'D', 'M', 'A', 'S', 'K', ':', ' ']
        ++ fields_text (pair_fields ps) := rfl
  rw [e, net_buf_linearize, List.take_append_eq_append_take, cstr_of_nonul]
  · simp
  · intro h
    rcases List.mem_append.mp h with h | h
    · exact absurd (List.mem_of_mem_take h) (by decide)
    · exact fields_text_nonul _ (List.mem_of_mem_take h)

/-- C11. For every prior state and every response line "+UBANDMASK: " followed
by comma-separated (rat_index, mask_value) pairs of integers in decimal: when
every rat_index is an int other than 0 and 1 (2, 3, ..., or negative), whatever
the mask values and the length of the line, the BandMask parser reports success,
gives the signal and leaves the state, band_mask[0] and band_mask[1] included,
as it was; and when the pairs of a line of at most 39 characters have values in
the range of int, the parser leaves the band masks that the pairs of index 0 or
1 give in their order, each pair of another index skipped together with its
mask. -/
theorem C11_out_of_range_pairs_skipped (ps : List (Int × Int)) (d : Driver) :
    ((∀ p ∈ ps, -2 ^ 31 ≤ p.1 ∧ p.1 < 2 ^ 31 ∧ p.1 ≠ 0 ∧ p.1 ≠ 1) →
      on_cmd_atcmdinfo_ubandmask (ubandmask_pairs_response ps) d = (0, k_sem_give d))
    ∧ ((∀ p ∈ ps, (-2 ^ 31 ≤ p.1 ∧ p.1 < 2 ^ 31) ∧ (-2 ^ 31 ≤ p.2 ∧ p.2 < 2 ^ 31)) →
      (ubandmask_pairs_response ps).length ≤ 39 →
      on_cmd_atcmdinfo_ubandmask (ubandmask_pairs_response ps) d
        = (0, k_sem_give { d with minfo := apply_pairs ps d.minfo })) := by
  have hs : strchr (['+', 'U', 'B', 'A', 'N', 'D', 'M', 'A', 'S', 'K', ':']
        ++ (' ' :: List.take 27 (fields_text (pair_fields ps)))) ' '
      = some (' ' :: List.take 27 (fields_text (pair_fields ps))) := by
    simp [strchr]
  constructor
  · intro hr
    simp only [on_cmd_atcmdinfo_ubandmask, pairs_response_buffer, hs, ubandmask_loop_space,
      ubandmask_loop_skips ps hr 27 _ 0 (-1) d.minfo rfl]
  · intro hr hlen
    have e : ubandmask_pairs_response ps
        = ['+', 'U', 'B', 'A', 'N', 'D', 'M', 'A', 'S', 'K', ':', ' ']
          ++ fields_text (pair_fields ps) := rfl
    have hl : (fields_text (pair_fields ps)).length ≤ 27 := by
      rw [e, List.length_append] at hlen
      simp only [List.length_cons, List.length_nil] at hlen
      omega
    have hf : 2 * ps.length ≤ (fields_text (pair_fields ps)).length + 1 := by
      have := fields_text_length (pair_fields ps)
      have hp : ∀ qs : List (Int × Int), (pair_fields qs).length = 2 * qs.length := by
        intro qs
        induction qs with
        | nil => rfl
        | cons q qs ih => simp only [pair_fields, List.length_cons, ih]; omega
      rw [hp] at this
      exact this
    have hb := pairs_response_buffer ps
    rw [List.take_of_length_le hl] at hb hs
    simp only [on_cmd_atcmdinfo_ubandmask, hb, hs, ubandmask_loop_space]
    rw [ubandmask_loop_pairs ps hr _ 0 (-1) d.minfo rfl
      (by simp only [List.length_append, List.length_cons, List.length_nil]; omega)]

/-- C11, witness: from a state with band masks 524420 and 524288, the response
"+UBANDMASK: 2,123" leaves them as they were, and the response
"+UBANDMASK: 2,123,1,7,-1,9,0,5" leaves band_mask[1] = 7 and band_mask[0] = 5. -/
theorem C11_out_of_range_pairs_skipped_witness :
    (ubandmask_pairs_response [(2, 123)] = "+UBANDMASK: 2,123".data
      ∧ on_cmd_atcmdinfo_ubandmask (ubandmask_pairs_response [(2, 123)]) settled_state.drv
        = (0, k_sem_give settled_state.drv))
    ∧ (ubandmask_pairs_response [(2, 123), (1, 7), (-1, 9), (0, 5)]
        = "+UBANDMASK: 2,123,1,7,-1,9,0,5".data
      ∧ on_cmd_atcmdinfo_ubandmask
          (ubandmask_pairs_response [(2, 123), (1, 7), (-1, 9), (0, 5)]) settled_state.drv
        = (0, k_sem_give { settled_state.drv with
            minfo := { settled_state.drv.minfo with mdm_bandmask0 := 5,
                                                    mdm_bandmask1 := 7 } })) :=
  ⟨⟨by decide,
    (C11_out_of_range_pairs_skipped [(2, 123)] settled_state.drv).1 (by decide)⟩,
   ⟨by decide,
    (C11_out_of_range_pairs_skipped [(2, 123), (1, 7), (-1, 9), (0, 5)]
      settled_state.drv).2 (by decide) (by decide)⟩⟩

/-! ## C12: the RAT parser -/

/-- C12. For every response line of at most 15 characters (a text line: no NUL
in it), the RAT parser reports success and releases the signal; when the line
contains a space it stores exactly the characters after the first space,
verbatim, and when it contains no space it stores the whole line. -/
theorem C12_rat_parser_stores_text (resp : List Char) (d : Driver)
    (hlen : resp.length ≤ 15) (hnul : '\x00' ∉ resp) :
    (' ' ∈ resp → on_cmd_atcmdinfo_urat resp d
      = (0, k_sem_give { d with minfo := { d.minfo with
          mdm_urat := resp.drop (resp.indexOf ' ' + 1) } }))
    ∧ (' ' ∉ resp → on_cmd_atcmdinfo_urat resp d
      = (0, k_sem_give { d with minfo := { d.minfo with mdm_urat := resp } })) := by
  constructor
  · intro h
    simp only [on_cmd_atcmdinfo_urat, net_buf_text hlen hnul, strchr_eq, if_pos h,
      List.drop_drop]
  · intro h
    simp only [on_cmd_atcmdinfo_urat, net_buf_text hlen hnul, strchr_eq, if_neg h]

/-- C12, witness: "+URAT: 7,9" stores "7,9", and "7,9" (no space) is stored
whole. -/
theorem C12_rat_parser_stores_text_witness :
    on_cmd_atcmdinfo_urat "+URAT: 7,9".data boot_state.drv
      = (0, { minfo := ⟨0, 0, "7,9".data, 0, 0, 0, 0, 0, 0⟩, ublox_sem := 1 })
    ∧ on_cmd_atcmdinfo_urat "7,9".data boot_state.drv
      = (0, { minfo := ⟨0, 0, "7,9".data, 0, 0, 0, 0, 0, 0⟩, ublox_sem := 1 }) :=
  ⟨(C12_rat_parser_stores_text "+URAT: 7,9".data boot_state.drv (by decide) (by decide)).1
      (by decide),
   (C12_rat_parser_stores_text "7,9".data boot_state.drv (by decide) (by decide)).2
      (by decide)⟩

/-! ## C13: the indicator parser on twelve fields -/

theorem cind_loop_fields : ∀ (fs : List Int) (f : Int) (fuel i : Nat) (m : modem_info),
    (∀ x ∈ f :: fs, -2 ^ 31 ≤ x ∧ x < 2 ^ 31) → (f :: fs).length ≤ fuel →
    cind_loop fuel (fields_text (f :: fs)) i m = cind_fields (f :: fs) i m := by
  intro fs
  induction fs with
  | nil =>
    intro f fuel i m hr hf
    obtain ⟨k, rfl⟩ : ∃ k, fuel = k + 1 := ⟨fuel - 1, by simp at hf; omega⟩
    have hx := hr f (List.mem_cons_self _ _)
    simp only [cind_loop, atoi_fields f [] hx.1 hx.2, next_field_fields_single, cind_fields]
  | cons g gs ih =>
    intro f fuel i m hr hf
    obtain ⟨k, rfl⟩ : ∃ k, fuel = k + 1 := ⟨fuel - 1, by simp at hf; omega⟩
    have hx := hr f (List.mem_cons_self _ _)
    simp only [cind_loop, atoi_fields f (g :: gs) hx.1 hx.2, next_field_fields]
    rw [ih g k (i + 1) _ (fun x hx' => hr x (List.mem_cons_of_mem _ hx'))
      (by simp only [List.length_cons] at hf ⊢; omega)]
    rfl

theorem cind_parser_fields (fs : List Int) (f : Int) (d : Driver)
    (hr : ∀ x ∈ f :: fs, -2 ^ 31 ≤ x ∧ x < 2 ^ 31)
    (hlen : (fields_text (f :: fs)).length ≤ 39) :
    on_cmd_atcmdinfo_cind (fields_text (f :: fs)) d
      = (0, k_sem_give { d with minfo := cind_fields (f :: fs) 0 d.minfo }) := by
  simp only [on_cmd_atcmdinfo_cind, net_buf_text hlen (fields_text_nonul _)]
  rw [cind_loop_fields fs f _ 0 _ hr (fields_text_length _)]

/-- C13. For every list of 12 integers f0..f11 in the range of int whose
comma-joined decimal text has at most 39 characters, the IndicatorVector parser
applied to that text reports success, gives the signal and stores
signal_strength = f1, network_service = f2, sim_status = f11, and roaming = 1
if f6 = 1, 0 if f6 = 0, -1 otherwise, the rest of the state being as before:
the state after the parser does not depend on the fields at positions 0, 3, 4,
5, 7, 8, 9 and 10. -/
theorem C13_indicator_fields (f0 f1 f2 f3 f4 f5 f6 f7 f8 f9 f10 f11 : Int) (d : Driver)
    (hr : ∀ x ∈ [f0, f1, f2, f3, f4, f5, f6, f7, f8, f9, f10, f11], -2 ^ 31 ≤ x ∧ x < 2 ^ 31)
    (hlen : (fields_text [f0, f1, f2, f3, f4, f5, f6, f7, f8, f9, f10, f11]).length ≤ 39) :
    on_cmd_atcmdinfo_cind (fields_text [f0, f1, f2, f3, f4, f5, f6, f7, f8, f9, f10, f11]) d
      = (0, k_sem_give { d with minfo := { d.minfo with
          mdm_signal := f1,
          mdm_simcard_status := f11,
          mdm_roaming := if f6 = 1 then 1 else if f6 = 0 then 0 else -1,
          mdm_service := f2 } }) := by
  rw [cind_parser_fields _ _ d hr hlen]
  simp [cind_fields, cind_field]

/-- C13, witness: the response "1,23,1,0,0,0,1,0,0,0,0,1" gives signal 23,
service 1, roaming 1 and SIM status 1. -/
theorem C13_indicator_fields_witness :
    fields_text [1, 23, 1, 0, 0, 0, 1, 0, 0, 0, 0, 1] = "1,23,1,0,0,0,1,0,0,0,0,1".data
    ∧ on_cmd_atcmdinfo_cind "1,23,1,0,0,0,1,0,0,0,0,1".data boot_state.drv
      = (0, { minfo := ⟨0, 0, [], 0, 0, 23, 1, 1, 1⟩, ublox_sem := 1 }) :=
  ⟨by decide,
   C13_indicator_fields 1 23 1 0 0 0 1 0 0 0 0 1 boot_state.drv (by decide) (by decide)⟩

/-! ## C14: the network status poll -/

/-- C14. `gsm_poll_network_status` sends the query "AT+CIND?" and nothing else;
if the query fails it returns that error; otherwise it returns 0 (ready) if and
only if network_service after the query is 1, and -EIO (not ready) for every
other value. `gsm_ppp_pre_connect_hook` is one such poll and returns its
result. -/
theorem C14_poll_network_status (tr : Transport) (s : State) :
    let r := modem_cmd_send_nolock tr (some on_cmd_atcmdinfo_cind) "AT+CIND?" Sem.ublox s
    (gsm_poll_network_status tr s).2.sent = s.sent ++ ["AT+CIND?"]
    ∧ (r.1 < 0 → gsm_poll_network_status tr s = r)
    ∧ (0 ≤ r.1 → r.2.drv.minfo.mdm_service = 1 → gsm_poll_network_status tr s = (0, r.2))
    ∧ (0 ≤ r.1 → r.2.drv.minfo.mdm_service ≠ 1 →
        gsm_poll_network_status tr s = (- EIO, r.2))
    ∧ (0 ≤ r.1 → ((gsm_poll_network_status tr s).1 = 0 ↔ r.2.drv.minfo.mdm_service = 1))
    ∧ gsm_ppp_pre_connect_hook tr s = gsm_poll_network_status tr s := by
  intro r
  have hs : r.2.sent = s.sent ++ ["AT+CIND?"] := send_sent _ _ _ _ _
  have e : modem_cmd_send_nolock tr (some on_cmd_atcmdinfo_cind) "AT+CIND?" Sem.ublox s = r :=
    rfl
  clear_value r
  simp only [gsm_ppp_pre_connect_hook, gsm_poll_network_status, e]
  refine ⟨?_, ?_, ?_, ?_, ?_, trivial⟩
  · split_ifs <;> exact hs
  · intro h
    rw [if_pos h]
  · intro h h1
    rw [if_neg (not_lt.mpr h), if_neg (by simp [h1])]
  · intro h h1
    rw [if_neg (not_lt.mpr h), if_pos h1]
  · intro h
    rw [if_neg (not_lt.mpr h)]
    split_ifs with h1
    · simp [h1, EIO]
    · simp only [ne_eq, not_not] at h1
      simp [h1]

/-- C14, witness: the modem answers "1,23,1,0,0,0,1,0,0,0,0,1" (service 1) and
the poll returns 0; it answers "1,23,0,0,0,0,1,0,0,0,0,1" (service 0) and the
poll returns -EIO; it does not answer and the poll returns -ETIMEDOUT. -/
theorem C14_poll_network_status_witness :
    gsm_poll_network_status (modem_cind ["1,23,1,0,0,0,1,0,0,0,0,1"]) boot_state
      = (0, { drv := { minfo := ⟨0, 0, [], 0, 0, 23, 1, 1, 1⟩, ublox_sem := 0 },
              sent := ["AT+CIND?"] })
    ∧ gsm_poll_network_status (modem_cind ["1,23,0,0,0,0,1,0,0,0,0,1"]) boot_state
      = (-5, { drv := { minfo := ⟨0, 0, [], 0, 0, 23, 1, 1, 0⟩, ublox_sem := 0 },
               sent := ["AT+CIND?"] })
    ∧ gsm_poll_network_status (modem_cind []) boot_state
      = (-116, { drv := boot_state.drv, sent := ["AT+CIND?"] }) :=
  ⟨(C14_poll_network_status (modem_cind ["1,23,1,0,0,0,1,0,0,0,0,1"]) boot_state).2.2.1
      (by decide) (by decide),
   (C14_poll_network_status (modem_cind ["1,23,0,0,0,0,1,0,0,0,0,1"]) boot_state).2.2.2.1
      (by decide) (by decide),
   (C14_poll_network_status (modem_cind []) boot_state).2.1 (by decide)⟩

/-! ## C15: the parsers and the completion signal -/

theorem give_le_one (d : Driver) : (k_sem_give d).ublox_sem ≤ 1 := by
  simp [k_sem_give]

theorem signal_contract_of_cases (h : Handler)
    (hc : ∀ l d, (∃ d', h l d = (0, k_sem_give d') ∧ d'.ublox_sem = d.ublox_sem)
      ∨ (∃ d', h l d = (-EINVAL, d') ∧ d'.ublox_sem = d.ublox_sem)) :
    signal_contract h := by
  intro l d
  have hne : (-EINVAL : Int) ≠ 0 := by decide
  rcases hc l d with ⟨d', e, hd⟩ | ⟨d', e, hd⟩
  · rw [e]
    have hg : (k_sem_give d').ublox_sem = (k_sem_give d).ublox_sem := by
      simp [k_sem_give, hd]
    refine ⟨Or.inl rfl, fun _ => hg, fun k => absurd rfl k, fun h0 => ?_, fun _ => ?_⟩
    · simp [k_sem_give, hd, h0]
    · exact give_le_one d'
  · rw [e]
    refine ⟨Or.inr rfl, fun k => absurd k hne, fun _ => hd, fun h0 => ?_, fun h1 => ?_⟩
    · simp only [hd, h0]
      constructor
      · intro k; exact absurd k (by decide)
      · intro k; exact absurd k hne
    · simpa only [hd] using h1

/-- C15. Each of the five response parsers (Profile, PSM, RAT, BandMask,
IndicatorVector), on every response line, returns 0 or -EINVAL; the completion
signal is given exactly when it returns 0 (a drained signal becomes available if
and only if the parser reports success); a parser that reports malformed input
leaves the signal count as it was; and the count never exceeds 1. -/
theorem C15_signal_released_iff_success :
    signal_contract on_cmd_atcmdinfo_mnoprof ∧ signal_contract on_cmd_atcmdinfo_psm
    ∧ signal_contract on_cmd_atcmdinfo_urat ∧ signal_contract on_cmd_atcmdinfo_ubandmask
    ∧ signal_contract on_cmd_atcmdinfo_cind := by
  refine ⟨?_, ?_, ?_, ?_, ?_⟩ <;> apply signal_contract_of_cases <;> intro l d
  · simp only [on_cmd_atcmdinfo_mnoprof]
    split
    · exact Or.inr ⟨_, rfl, rfl⟩
    · split
      · exact Or.inr ⟨_, rfl, rfl⟩
      · exact Or.inl ⟨_, rfl, rfl⟩
  · simp only [on_cmd_atcmdinfo_psm]
    split
    · exact Or.inr ⟨_, rfl, rfl⟩
    · exact Or.inl ⟨_, rfl, rfl⟩
  · exact Or.inl ⟨_, rfl, rfl⟩
  · exact Or.inl ⟨_, rfl, rfl⟩
  · exact Or.inl ⟨_, rfl, rfl⟩

/-- C15, witness: on "+UMNOPROF: 100" the Profile parser returns 0 and the
drained signal becomes available; on "garbage" it returns -EINVAL and the
signal stays drained. -/
theorem C15_signal_released_iff_success_witness :
    (on_cmd_atcmdinfo_mnoprof "+UMNOPROF: 100".data boot_state.drv).2.ublox_sem = 1
    ∧ (on_cmd_atcmdinfo_mnoprof "garbage".data boot_state.drv).2.ublox_sem = 0 :=
  ⟨((C15_signal_released_iff_success.1 "+UMNOPROF: 100".data boot_state.drv).2.2.2.1
      (by decide)).2 (by decide),
   (C15_signal_released_iff_success.1 "garbage".data boot_state.drv).2.2.1 (by decide)⟩

/-! ## C16: a query that times out -/

theorem dispatch_all_rejected (h : Handler) (f : Driver → Driver)
    (hff : ∀ d, f (f d) = f d) (hfs : ∀ d, (f d).ublox_sem = d.ublox_sem) :
    ∀ (l : List Char) (ls : List (List Char)) (d : Driver),
      (∀ x ∈ l :: ls, ∀ d', (h x d').2 = f d') → d.ublox_sem = 0 →
      dispatch h true (l :: ls) d = f d := by
  intro l ls
  induction ls generalizing l with
  | nil =>
    intro d hr hd
    have e := hr l (List.mem_cons_self _ _) d
    simp only [dispatch, e, hfs, hd]
    rw [if_neg (by simp)]
  | cons l' ls ih =>
    intro d hr hd
    have e := hr l (List.mem_cons_self _ _) d
    have e' := ih l' (f d) (fun x hx => hr x (List.mem_cons_of_mem _ hx))
      (by rw [hfs, hd])
    rw [hff] at e'
    rw [dispatch]
    simp only [e, hfs, hd]
    rw [if_neg (by simp)]
    exact e'

theorem send_timeout (tr : Transport) (c : String) (h : Handler) (s : State) (d : Driver)
    (hd : (match (tr s.sent c).lines with
      | [] => { s.drv with ublox_sem := 0 }
      | l :: ls => dispatch h true (l :: ls) { s.drv with ublox_sem := 0 }) = d)
    (hs : d.ublox_sem = 0) :
    modem_cmd_handler_setup_cmds_nolock tr [SETUP_CMD c h] Sem.ublox s
      = (-ETIMEDOUT, { drv := d, sent := s.sent ++ [c] }) := by
  rw [setup_cmds_single]
  have e : dispatch h true (tr s.sent c).lines { s.drv with ublox_sem := 0 } = d := by
    rw [← hd]
    cases (tr s.sent c).lines <;> rfl
  simp only [SETUP_CMD, modem_cmd_send_nolock, e, hs]
  rw [if_neg (by simp)]

/-- C16 (amended). When the query of a step ends in a timeout because no response
arrived, the step returns -ETIMEDOUT, sends no command after its query and all
of DeviceState is as before the step; this is every timeout of the RAT and
BandMask queries, whose parsers reject no response. When the PSM query times out
because every response was rejected by its parser, the same holds. When the
Profile query times out because every response was rejected by its parser, and
there was such a response, the step returns -ETIMEDOUT and sends no command
after its query, and profile is the sentinel -1, the rest of DeviceState being
as before the step. -/
theorem C16_query_timeout (cfg : Config) (tr : Transport) (s : State) :
    ((tr s.sent "AT+UMNOPROF?").lines = [] →
      gsm_setup_mnoprof cfg tr s
        = (-ETIMEDOUT,
           { drv := { minfo := s.drv.minfo, ublox_sem := 0 },
             sent := s.sent ++ ["AT+UMNOPROF?"] }))
    ∧ ((tr s.sent "AT+UMNOPROF?").lines ≠ [] →
      (∀ l ∈ (tr s.sent "AT+UMNOPROF?").lines,
        ':' ∉ cstr (net_buf_linearize 15 l)
        ∨ (cstr (net_buf_linearize 15 l))[(cstr (net_buf_linearize 15 l)).indexOf ':' + 1]?
            ≠ some ' ') →
      gsm_setup_mnoprof cfg tr s
        = (-ETIMEDOUT,
           { drv := { minfo := { s.drv.minfo with mdm_mnoprof := -1 }, ublox_sem := 0 },
             sent := s.sent ++ ["AT+UMNOPROF?"] }))
    ∧ ((∀ l ∈ (tr s.sent "AT+CPSMS?").lines, ':' ∉ cstr (net_buf_linearize 15 l)) →
      gsm_setup_psm tr s
        = (-ETIMEDOUT,
           { drv := { minfo := s.drv.minfo, ublox_sem := 0 },
             sent := s.sent ++ ["AT+CPSMS?"] }))
    ∧ ((tr s.sent "AT+URAT?").lines = [] →
      gsm_setup_urat cfg tr s
        = (-ETIMEDOUT,
           { drv := { minfo := s.drv.minfo, ublox_sem := 0 },
             sent := s.sent ++ ["AT+URAT?"] }))
    ∧ ((tr s.sent "AT+UBANDMASK?").lines = [] →
      gsm_setup_ubandmask cfg tr s
        = (-ETIMEDOUT,
           { drv := { minfo := s.drv.minfo, ublox_sem := 0 },
             sent := s.sent ++ ["AT+UBANDMASK?"] })) := by
  have hneg : (-ETIMEDOUT : Int) < 0 := by decide
  refine ⟨?_, ?_, ?_, ?_, ?_⟩
  · intro hl
    have hq := send_timeout tr "AT+UMNOPROF?" on_cmd_atcmdinfo_mnoprof s
      { s.drv with ublox_sem := 0 } (by rw [hl]) rfl
    simp only [gsm_setup_mnoprof, mnoprof_query_cmds, hq]
    rw [if_pos hneg]
  · intro hl hr
    obtain ⟨l, ls, hls⟩ := List.exists_cons_of_ne_nil hl
    have hq := send_timeout tr "AT+UMNOPROF?" on_cmd_atcmdinfo_mnoprof s
      { minfo := { s.drv.minfo with mdm_mnoprof := -1 }, ublox_sem := 0 }
      (by
        rw [hls]
        exact dispatch_all_rejected on_cmd_atcmdinfo_mnoprof
          (fun d => { d with minfo := { d.minfo with mdm_mnoprof := -1 } })
          (fun _ => rfl) (fun _ => rfl) l ls _
          (fun x hx d' => by rw [mnoprof_result x d' (hr x (hls ▸ hx))]) rfl) rfl
    simp only [gsm_setup_mnoprof, mnoprof_query_cmds, hq]
    rw [if_pos hneg]
  · intro hr
    have hq := send_timeout tr "AT+CPSMS?" on_cmd_atcmdinfo_psm s
      { s.drv with ublox_sem := 0 }
      (by
        cases hls : (tr s.sent "AT+CPSMS?").lines with
        | nil => rfl
        | cons l ls =>
          exact dispatch_all_rejected on_cmd_atcmdinfo_psm (fun d => d)
            (fun _ => rfl) (fun _ => rfl) l ls _
            (fun x hx d' => by rw [psm_result x d' (hr x (hls ▸ hx))]) rfl) rfl
    simp only [gsm_setup_psm, psm_query_cmds, hq]
    rw [if_pos hneg]
  · intro hl
    have hq := send_timeout tr "AT+URAT?" on_cmd_atcmdinfo_urat s
      { s.drv with ublox_sem := 0 } (by rw [hl]) rfl
    simp only [gsm_setup_urat, urat_query_cmds, hq]
    rw [if_pos hneg]
  · intro hl
    have hq := send_timeout tr "AT+UBANDMASK?" on_cmd_atcmdinfo_ubandmask s
      { s.drv with ublox_sem := 0 } (by rw [hl]) rfl
    simp only [gsm_setup_ubandmask, ubandmask_query_cmds, hq]
    rw [if_pos hneg]

/-- C16, witness: from a state with profile 100, no response to the Profile query
leaves profile 100, the response "garbage" leaves profile -1, and the response
"garbage" to the PSM query leaves the state as it was. -/
theorem C16_query_timeout_witness :
    gsm_setup_mnoprof sample_config (modem_cind []) settled_state
      = (-ETIMEDOUT, { drv := settled_state.drv, sent := ["AT+UMNOPROF?"] })
    ∧ gsm_setup_mnoprof sample_config
        (modem_replies "garbage" "garbage" "+URAT: 7" "+UBANDMASK: 0,524420,1,524288")
        settled_state
      = (-ETIMEDOUT,
         { drv := { minfo := ⟨-1, 0, ['7'], 524420, 524288, 20, 1, 0, 1⟩, ublox_sem := 0 },
           sent := ["AT+UMNOPROF?"] })
    ∧ gsm_setup_psm
        (modem_replies "garbage" "garbage" "+URAT: 7" "+UBANDMASK: 0,524420,1,524288")
        settled_state
      = (-ETIMEDOUT, { drv := settled_state.drv, sent := ["AT+CPSMS?"] }) :=
  ⟨(C16_query_timeout sample_config (modem_cind []) settled_state).1 (by decide),
   (C16_query_timeout sample_config
      (modem_replies "garbage" "garbage" "+URAT: 7" "+UBANDMASK: 0,524420,1,524288")
      settled_state).2.1 (by decide) (by decide),
   (C16_query_timeout sample_config
      (modem_replies "garbage" "garbage" "+URAT: 7" "+UBANDMASK: 0,524420,1,524288")
      settled_state).2.2.1 (by decide)⟩

/-- C16, counterexample: from a state with profile 100, the Profile query is
answered with "garbage"; the query times out, the step returns -ETIMEDOUT and
sends no apply command, and profile is -1, not the 100 of before the step. -/
theorem C16_counterexample :
    settled_state.drv.minfo.mdm_mnoprof = 100
    ∧ (on_cmd_atcmdinfo_mnoprof "garbage".data { settled_state.drv with ublox_sem := 0 }).1
        = -EINVAL
    ∧ (gsm_setup_mnoprof sample_config
        (modem_replies "garbage" "garbage" "+URAT: 7" "+UBANDMASK: 0,524420,1,524288")
        settled_state).1 = -ETIMEDOUT
    ∧ (gsm_setup_mnoprof sample_config
        (modem_replies "garbage" "garbage" "+URAT: 7" "+UBANDMASK: 0,524420,1,524288")
        settled_state).2.sent = ["AT+UMNOPROF?"]
    ∧ (gsm_setup_mnoprof sample_config
        (modem_replies "garbage" "garbage" "+URAT: 7" "+UBANDMASK: 0,524420,1,524288")
        settled_state).2.drv.minfo.mdm_mnoprof = -1 := by
  decide

/-! ## C17: the sentinel profile -/

/-- C17. For every target profile and every transport behaviour: when the
Profile query succeeds and leaves profile = -1, the Profile step returns the
non-negative result of the query (Unchanged) and its query is the only command
it sent; and whenever the step sent anything other than its query, the query had
succeeded and the stored profile was different from -1 and from the target. -/
theorem C17_sentinel_never_corrected (cfg : Config) (tr : Transport) (s : State) :
    let q := modem_cmd_handler_setup_cmds_nolock tr mnoprof_query_cmds Sem.ublox s
    (0 ≤ q.1 → q.2.drv.minfo.mdm_mnoprof = -1 →
      gsm_setup_mnoprof cfg tr s = q ∧ 0 ≤ (gsm_setup_mnoprof cfg tr s).1
        ∧ (gsm_setup_mnoprof cfg tr s).2.sent = s.sent ++ ["AT+UMNOPROF?"])
    ∧ ((gsm_setup_mnoprof cfg tr s).2.sent ≠ s.sent ++ ["AT+UMNOPROF?"] →
      0 ≤ q.1 ∧ q.2.drv.minfo.mdm_mnoprof ≠ -1 ∧ q.2.drv.minfo.mdm_mnoprof ≠ cfg.MNOPROF) := by
  intro q
  have hs : q.2.sent = s.sent ++ ["AT+UMNOPROF?"] := query_sent tr _ _ s
  have e : modem_cmd_handler_setup_cmds_nolock tr mnoprof_query_cmds Sem.ublox s = q := rfl
  clear_value q
  simp only [gsm_setup_mnoprof, e]
  constructor
  · intro hq h1
    rw [if_neg (not_lt.mpr hq), if_neg (fun h => h.1 h1)]
    exact ⟨rfl, hq, hs⟩
  · intro h
    by_cases hq : q.1 < 0
    · rw [if_pos hq] at h
      exact absurd hs h
    · rw [if_neg hq] at h
      by_cases hm : q.2.drv.minfo.mdm_mnoprof ≠ -1 ∧ q.2.drv.minfo.mdm_mnoprof ≠ cfg.MNOPROF
      · exact ⟨not_lt.mp hq, hm⟩
      · rw [if_neg hm] at h
        exact absurd hs h

/-- C17, witness: the modem reports profile -1 where 100 is configured; the
step returns 0 and sends its query only. With profile 1 reported, the step sends
more than its query. -/
theorem C17_sentinel_never_corrected_witness :
    gsm_setup_mnoprof sample_config
        (modem_replies "+UMNOPROF: -1" "+CPSMS: 0" "+URAT: 7" "+UBANDMASK: 0,1,1,2") boot_state
      = (0, { drv := { minfo := ⟨-1, 0, [], 0, 0, 0, 0, 0, 0⟩, ublox_sem := 0 },
              sent := ["AT+UMNOPROF?"] })
    ∧ (modem_cmd_handler_setup_cmds_nolock modem_off_target mnoprof_query_cmds Sem.ublox
        boot_state).2.drv.minfo.mdm_mnoprof ≠ -1 :=
  ⟨((C17_sentinel_never_corrected sample_config
      (modem_replies "+UMNOPROF: -1" "+CPSMS: 0" "+URAT: 7" "+UBANDMASK: 0,1,1,2")
      boot_state).1 (by decide) (by decide)).1,
   ((C17_sentinel_never_corrected sample_config modem_off_target boot_state).2
      (by decide)).2.1⟩

/-! ## C18: an indicator response with fewer than three fields -/

theorem strchr_count (x : Char) : ∀ (p q : List Char), strchr p x = some q →
    q.count x = p.count x ∧ q.head? = some x := by
  intro p
  induction p with
  | nil => intro q h; simp [strchr] at h
  | cons c cs ih =>
    intro q h
    unfold strchr at h
    split at h
    · rename_i hc
      cases h
      exact ⟨rfl, by simp [hc]⟩
    · rename_i hc
      obtain ⟨h1, h2⟩ := ih q h
      refine ⟨?_, h2⟩
      rw [h1, List.count_cons_of_ne (fun e => hc e.symm)]

theorem next_field_count {p q : List Char} (h : next_field p = some q) :
    q.count ',' + 1 = p.count ',' := by
  unfold next_field at h
  split at h
  · cases h
  · rename_i r hr
    cases h
    obtain ⟨h1, h2⟩ := strchr_count ',' p r hr
    cases r with
    | nil => simp at h2
    | cons c cs =>
      simp only [List.head?_cons, Option.some.injEq] at h2
      subst h2
      rw [← h1]
      simp

theorem cind_loop_service : ∀ (fuel : Nat) (p : List Char) (i : Nat) (m : modem_info),
    i + p.count ',' < 2 → (cind_loop fuel p i m).mdm_service = m.mdm_service := by
  intro fuel
  induction fuel with
  | zero => intro p i m _; rfl
  | succ fuel ih =>
    intro p i m h
    have hi : i ≠ 2 := by omega
    have hf : (cind_field i (atoi p) m).mdm_service = m.mdm_service := by
      unfold cind_field
      split_ifs <;> rfl
    simp only [cind_loop]
    split
    · exact hf
    · rename_i q hq
      have hc := next_field_count hq
      rw [ih q (i + 1) _ (by omega), hf]

theorem buffer_count (cap : Nat) (l : List Char) (x : Char) :
    (cstr (net_buf_linearize cap l)).count x ≤ l.count x := by
  unfold cstr net_buf_linearize
  exact ((List.takeWhile_sublist _).trans (List.take_sublist _ _)).count_le x

/-- C18. For every prior state and every CIND response with fewer than two
commas (fewer than three fields; the empty line too), the IndicatorVector
parser reports success and gives the signal while network_service keeps its
prior value. Consequently, when such a line answers the query and the command
is acknowledged, `gsm_poll_network_status` returns 0 (ready) exactly when the
network_service stored before the poll was 1, and -EIO otherwise. -/
theorem C18_short_indicator_response (resp : List Char) (h : resp.count ',' < 2) :
    (∀ d : Driver, (on_cmd_atcmdinfo_cind resp d).1 = 0
      ∧ (on_cmd_atcmdinfo_cind resp d).2.ublox_sem = (k_sem_give d).ublox_sem
      ∧ (on_cmd_atcmdinfo_cind resp d).2.minfo.mdm_service = d.minfo.mdm_service)
    ∧ (∀ (tr : Transport) (s : State) (rest : List (List Char)),
        (tr s.sent "AT+CIND?").lines = resp :: rest → (tr s.sent "AT+CIND?").errno = 0 →
        (gsm_poll_network_status tr s).1 = (if s.drv.minfo.mdm_service = 1 then 0 else - EIO)
        ∧ ((gsm_poll_network_status tr s).1 = 0 ↔ s.drv.minfo.mdm_service = 1)) := by
  have hsvc : ∀ d : Driver,
      (on_cmd_atcmdinfo_cind resp d).2.minfo.mdm_service = d.minfo.mdm_service := by
    intro d
    simp only [on_cmd_atcmdinfo_cind, k_sem_give]
    exact cind_loop_service _ _ 0 _ (by have := buffer_count 39 resp ','; omega)
  refine ⟨fun d => ⟨rfl, rfl, hsvc d⟩, ?_⟩
  intro tr s rest hl he
  have hg : ∀ d : Driver, 0 < (on_cmd_atcmdinfo_cind resp d).2.ublox_sem := by
    intro d
    simp [on_cmd_atcmdinfo_cind, k_sem_give]
  have hr : (modem_cmd_send_nolock tr (some on_cmd_atcmdinfo_cind) "AT+CIND?" Sem.ublox s).1
        = 0
      ∧ (modem_cmd_send_nolock tr (some on_cmd_atcmdinfo_cind) "AT+CIND?" Sem.ublox
          s).2.drv.minfo.mdm_service = s.drv.minfo.mdm_service := by
    simp only [modem_cmd_send_nolock, hl, he, dispatch, hg, and_self, if_true, decide_True]
    exact ⟨by simp, hsvc _⟩
  have hp : (gsm_poll_network_status tr s).1
      = (if s.drv.minfo.mdm_service = 1 then 0 else - EIO) := by
    simp only [gsm_poll_network_status, hr.1, hr.2]
    rw [if_neg (by decide)]
    by_cases h1 : s.drv.minfo.mdm_service = 1
    · rw [if_neg (not_not.mpr h1), if_pos h1]
    · rw [if_pos h1, if_neg h1]
  refine ⟨hp, ?_⟩
  rw [hp]
  split_ifs with h1
  · simp [h1]
  · simp [h1, EIO]

/-- C18, witness: the response "5" (one field) leaves network_service as it was:
the poll returns 0 from a state with network_service 1 and -EIO from the
start-up state. -/
theorem C18_short_indicator_response_witness :
    (on_cmd_atcmdinfo_cind "5".data settled_state.drv).2.minfo.mdm_service = 1
    ∧ (gsm_poll_network_status (modem_cind ["5"]) settled_state).1 = 0
    ∧ (gsm_poll_network_status (modem_cind ["5"]) boot_state).1 = - EIO :=
  ⟨((C18_short_indicator_response "5".data (by decide)).1 settled_state.drv).2.2,
   ((C18_short_indicator_response "5".data (by decide)).2 (modem_cind ["5"]) settled_state []
      (by decide) (by decide)).1,
   ((C18_short_indicator_response "5".data (by decide)).2 (modem_cind ["5"]) boot_state []
      (by decide) (by decide)).1⟩

/-! ## C19: what each parser writes -/

theorem ubandmask_loop_writes : ∀ (fuel : Nat) (p : List Char) (i : Nat) (rat : Int)
    (m : modem_info), ∃ b0 b1 : Nat,
      ubandmask_loop fuel p i rat m = { m with mdm_bandmask0 := b0, mdm_bandmask1 := b1 } := by
  intro fuel
  induction fuel with
  | zero => intro p i rat m; exact ⟨m.mdm_bandmask0, m.mdm_bandmask1, rfl⟩
  | succ fuel ih =>
    intro p i rat m
    have hm : ∃ b0 b1 : Nat,
        (if i % 2 = 0 then m
          else if 0 ≤ rat ∧ rat < MDM_UBANDMASKS then set_bandmask m rat (atoi p) else m)
          = { m with mdm_bandmask0 := b0, mdm_bandmask1 := b1 } := by
      split_ifs
      · exact ⟨m.mdm_bandmask0, m.mdm_bandmask1, rfl⟩
      · unfold set_bandmask
        split_ifs
        · exact ⟨_, m.mdm_bandmask1, rfl⟩
        · exact ⟨m.mdm_bandmask0, _, rfl⟩
      · exact ⟨m.mdm_bandmask0, m.mdm_bandmask1, rfl⟩
    obtain ⟨b0, b1, hb⟩ := hm
    simp only [ubandmask_loop, hb]
    split
    · exact ⟨b0, b1, rfl⟩
    · obtain ⟨c0, c1, hc⟩ := ih _ (i + 1) (if i % 2 = 0 then atoi p else rat)
        { m with mdm_bandmask0 := b0, mdm_bandmask1 := b1 }
      exact ⟨c0, c1, hc⟩

theorem cind_field_writes (i : Nat) (v : Int) (m : modem_info) : ∃ a b c e : Int,
    cind_field i v m
      = { m with mdm_signal := a, mdm_simcard_status := b, mdm_roaming := c,
                 mdm_service := e } := by
  unfold cind_field
  split_ifs <;> exact ⟨_, _, _, _, rfl⟩

theorem cind_loop_writes : ∀ (fuel : Nat) (p : List Char) (i : Nat) (m : modem_info),
    ∃ a b c e : Int,
      cind_loop fuel p i m
        = { m with mdm_signal := a, mdm_simcard_status := b, mdm_roaming := c,
                   mdm_service := e } := by
  intro fuel
  induction fuel with
  | zero =>
    intro p i m
    exact ⟨m.mdm_signal, m.mdm_simcard_status, m.mdm_roaming, m.mdm_service, rfl⟩
  | succ fuel ih =>
    intro p i m
    obtain ⟨a, b, c, e, h⟩ := cind_field_writes i (atoi p) m
    simp only [cind_loop, h]
    split
    · exact ⟨a, b, c, e, rfl⟩
    · obtain ⟨a', b', c', e', h'⟩ := ih _ (i + 1)
        { m with mdm_signal := a, mdm_simcard_status := b, mdm_roaming := c,
                 mdm_service := e }
      exact ⟨a', b', c', e', h'⟩

theorem writes_bandmask {x m : modem_info}
    (h : ∃ b0 b1 : Nat, x = { m with mdm_bandmask0 := b0, mdm_bandmask1 := b1 }) :
    x = { m with mdm_bandmask0 := x.mdm_bandmask0, mdm_bandmask1 := x.mdm_bandmask1 } := by
  obtain ⟨b0, b1, rfl⟩ := h
  rfl

theorem writes_indicators {x m : modem_info}
    (h : ∃ a b c e : Int, x
      = { m with mdm_signal := a, mdm_simcard_status := b, mdm_roaming := c,
                 mdm_service := e }) :
    x = { m with mdm_signal := x.mdm_signal, mdm_simcard_status := x.mdm_simcard_status,
                 mdm_roaming := x.mdm_roaming, mdm_service := x.mdm_service } := by
  obtain ⟨a, b, c, e, rfl⟩ := h
  rfl

/-- C19. For every input line and every prior state, whether the parser succeeds
or fails: the state after the Profile parser differs from the prior state at
most in profile, after the PSM parser at most in psm, after the RAT parser at
most in rat, after the BandMask parser at most in the two band masks, and after
the IndicatorVector parser at most in signal strength, SIM status, roaming and
network service. -/
theorem C19_parsers_write_own_fields (l : List Char) (d : Driver) :
    (on_cmd_atcmdinfo_mnoprof l d).2.minfo
        = { d.minfo with mdm_mnoprof := (on_cmd_atcmdinfo_mnoprof l d).2.minfo.mdm_mnoprof }
    ∧ (on_cmd_atcmdinfo_psm l d).2.minfo
        = { d.minfo with mdm_psm := (on_cmd_atcmdinfo_psm l d).2.minfo.mdm_psm }
    ∧ (on_cmd_atcmdinfo_urat l d).2.minfo
        = { d.minfo with mdm_urat := (on_cmd_atcmdinfo_urat l d).2.minfo.mdm_urat }
    ∧ (on_cmd_atcmdinfo_ubandmask l d).2.minfo
        = { d.minfo with
            mdm_bandmask0 := (on_cmd_atcmdinfo_ubandmask l d).2.minfo.mdm_bandmask0,
            mdm_bandmask1 := (on_cmd_atcmdinfo_ubandmask l d).2.minfo.mdm_bandmask1 }
    ∧ (on_cmd_atcmdinfo_cind l d).2.minfo
        = { d.minfo with
            mdm_signal := (on_cmd_atcmdinfo_cind l d).2.minfo.mdm_signal,
            mdm_simcard_status := (on_cmd_atcmdinfo_cind l d).2.minfo.mdm_simcard_status,
            mdm_roaming := (on_cmd_atcmdinfo_cind l d).2.minfo.mdm_roaming,
            mdm_service := (on_cmd_atcmdinfo_cind l d).2.minfo.mdm_service } := by
  refine ⟨?_, ?_, ?_, ?_, ?_⟩
  · simp only [on_cmd_atcmdinfo_mnoprof]
    split
    · rfl
    · split <;> rfl
  · simp only [on_cmd_atcmdinfo_psm]
    split <;> rfl
  · rfl
  · exact writes_bandmask (ubandmask_loop_writes _ _ _ _ _)
  · exact writes_indicators (cind_loop_writes _ _ _ _)

/-! ## C20: the size of the manual operator command -/

/-- C20. For every operator id in the range 0..99999999, the command text
"AT+COPS=1,2,<operator id>" that `gsm_ppp_setup_hook` formats has at most 20
characters, and with its terminating NUL it fits the 21 bytes of the buffer
`manual_cops`. -/
theorem C20_manual_cops_fits (operator : Int) (h0 : 0 ≤ operator)
    (h1 : operator ≤ 99999999) :
    (manual_cops operator).length ≤ 20
    ∧ manual_cops_size = 21
    ∧ (manual_cops operator).length + 1 ≤ manual_cops_size := by
  have hsize : manual_cops_size = 21 := by decide
  have hlen : (manual_cops operator).length ≤ 20 := by
    obtain ⟨n, rfl⟩ := Int.eq_ofNat_of_zero_le h0
    have hn : n < 10 ^ 8 := by
      have : (n : Int) ≤ 99999999 := h1
      omega
    have hr : (Nat.repr n).length ≤ 8 := Nat.repr_length n 8 (by decide) hn
    have e : manual_cops (n : Int) = "AT+COPS=1,2," ++ Nat.repr n := rfl
    rw [e, String.length_append]
    have : "AT+COPS=1,2,".length = 12 := by decide
    omega
  exact ⟨hlen, hsize, by omega⟩

/-- C20, witness: the operator id 24001. -/
theorem C20_manual_cops_fits_witness :
    (manual_cops 24001).length ≤ 20
    ∧ manual_cops_size = 21
    ∧ (manual_cops 24001).length + 1 ≤ manual_cops_size :=
  C20_manual_cops_fits 24001 (by decide) (by decide)

end UbloxPPP
